import Mathlib

/-!
# Verification of the Drift Signal & Cross-Metric Association Engine

Shallow embedding of the mindforge-guard drift/association core:

* `src/packages/guard/src/runtime/association/correlate.mjs`
  (`pearsonStats`, `computeLagStats`, `blockBootstrapR`, `buildXYSeries`,
  `buildAssociationBundle`)
* `src/packages/guard/src/runtime/association/series_from_drift_events.mjs`
  (`buildDriftDailySeries` and its `parseJsonlSafe`)
* `risk_trend.mjs` (`readRiskTrendFromAuditJsonl`, `extractTs`,
  `extractRiskScore`, `quantile`, its `parseJsonlSafe`)
* the drift analytics module (`analyzeDrift`, `computeDriftDominance`,
  its `parseJsonlSafe`)

Modelling conventions:

* JS numbers are modelled as `ℚ`; the only irrational operation in the
  source is `Math.sqrt` inside the Pearson denominator, so the Pearson `r`
  value is modelled in `ℝ` (`Real.sqrt`) while everything that the source
  computes with rational operations stays in computable `ℚ`.
* `Number.prototype.toFixed(k)` followed by `Number(...)` is modelled as
  rounding to `k` decimal digits (round half towards `+∞`, matching the
  ECMAScript "pick the larger n" tie rule).
* Timestamps are modelled as integer milliseconds since the epoch.
  `Date.parse` of an arbitrary string is an external parser and is passed
  in as a parameter `dateParse : String → Option Int` (`none` = `NaN`);
  an ISO string and its millisecond value are identified, so the
  UTC-midnight truncation `utcDayStartIso` becomes flooring to a multiple
  of 86400000 ms.
* A JSONL file is modelled as `Option (List (Option Json))`: `none` is a
  missing file, and each line is the result of `JSON.parse`
  (`none` = malformed line).  The string-level split on newlines is
  byte-plumbing outside the modelled core.
* `undefined` values flowing out of JS property accesses are modelled with
  `Option`; `Number.isFinite` filtering in `pearsonStats` receives
  `Option ℚ` inputs where `none` models a non-finite value (`undefined`).
* `Math.random()` is modelled as an injected stream `rand : ℕ → ℚ` giving
  the value of the k-th call.
-/

/-- JSON values, the result of a successful `JSON.parse`. -/
inductive Json where
  | null : Json
  | bool : Bool → Json
  | num : ℚ → Json
  | str : String → Json
  | arr : List Json → Json
  | obj : List (String × Json) → Json

namespace Json

/-- Property access `o?.k`: `none` models `undefined`. -/
def get? : Json → String → Option Json
  | .obj fields, k => (fields.find? (fun p => p.1 = k)).map Prod.snd
  | _, _ => none

/-- Nested access `o?.k1?.k2`. -/
def get2? (j : Json) (k1 k2 : String) : Option Json :=
  (j.get? k1).bind (fun v => v.get? k2)

/-- JS truthiness of a JSON value (`false`, `0`, `""`, `null` are falsy). -/
def truthy : Json → Bool
  | .null => false
  | .bool b => b
  | .num q => q ≠ 0
  | .str s => s ≠ ""
  | .arr _ => true
  | .obj _ => true

end Json

/-- A JSONL file: `none` = missing file; each line is a `JSON.parse`
result (`none` = malformed line that threw). -/
abbrev JsonlFile := Option (List (Option Json))

/-- Does a parsed line satisfy the drift-event filter of the series
builder's `parseJsonlSafe` (`kind=="drift_event" && v===2 && typeof
ts==="string"`)? -/
def isDriftSeriesEvent (j : Json) : Bool :=
  (match j.get? "kind" with | some (.str s) => s = "drift_event" | _ => false) &&
  (match j.get? "v" with | some (.num q) => q = 2 | _ => false) &&
  (match j.get? "ts" with | some (.str _) => true | _ => false)

/-- Does a parsed line satisfy the drift-analytics filter
(`kind=="drift_event" && v===2`)? -/
def isDriftEvent (j : Json) : Bool :=
  (match j.get? "kind" with | some (.str s) => s = "drift_event" | _ => false) &&
  (match j.get? "v" with | some (.num q) => q = 2 | _ => false)

/-- `parseJsonlSafe` of `series_from_drift_events.mjs`: missing file gives
`[]`; each line is parsed independently, malformed lines are skipped, and
only `kind=="drift_event" && v===2 && typeof ts==="string"` lines are
kept.  The loop accumulating into `out` is mirrored by a left fold. -/
def parseJsonlSafeDriftSeries (file : JsonlFile) : List Json :=
  match file with
  | none => []
  | some lines =>
    lines.foldl
      (fun out l =>
        match l with
        | some j => if isDriftSeriesEvent j then out ++ [j] else out
        | none => out)
      []

/-- `parseJsonlSafe` of the drift analytics module: same shape, filter is
`kind=="drift_event" && v===2` only. -/
def parseJsonlSafeDrift (file : JsonlFile) : List Json :=
  match file with
  | none => []
  | some lines =>
    lines.foldl
      (fun out l =>
        match l with
        | some j => if isDriftEvent j then out ++ [j] else out
        | none => out)
      []

/-- `parseJsonlSafe` of `risk_trend.mjs`: no filter, every successfully
parsed line is kept. -/
def parseJsonlSafeAudit (file : JsonlFile) : List Json :=
  match file with
  | none => []
  | some lines =>
    lines.foldl
      (fun out l => match l with | some j => out ++ [j] | none => out)
      []

/-- `clamp(n, a, b) = Math.max(a, Math.min(b, n))`. -/
def jsClamp (n a b : ℚ) : ℚ := max a (min b n)

/-- `Number(x.toFixed(p))`: round to `p` decimal digits, ties towards
`+∞` (ECMAScript `toFixed` picks the larger candidate on ties, and
Mathlib's `round` is `⌊x + 1/2⌋`, the same rule). -/
def roundTo (p : ℕ) (q : ℚ) : ℚ := (round (q * 10 ^ p) : ℤ) / 10 ^ p

/-- Same decimal rounding on `ℝ`, used for the Pearson `r` (4 digits). -/
noncomputable def roundToR (p : ℕ) (x : ℝ) : ℝ := (round (x * 10 ^ p) : ℤ) / 10 ^ p

/-- The linear-interpolation `quantile(sorted, q)` shared by
`risk_trend.mjs` and `correlate.mjs` (polymorphic so it can be used both
on `ℚ` score lists and on `ℝ` bootstrap-r lists). -/
def jsQuantile {α : Type} [LinearOrderedField α] [FloorRing α]
    (sorted : List α) (q : α) : α :=
  if sorted.length = 0 then 0
  else
    let pos : α := ((sorted.length : α) - 1) * q
    let base : ℤ := ⌊pos⌋
    let rest : α := pos - base
    let v0 := sorted.getD base.toNat 0
    let v1 := sorted.getD (min (base.toNat + 1) (sorted.length - 1)) 0
    v0 + rest * (v1 - v0)

/-- `windowToDays`: `"14d" ↦ 14`, `"30d" ↦ 30`, anything else `↦ 7`. -/
def windowToDays (w : String) : ℕ :=
  if w = "14d" then 14 else if w = "30d" then 30 else 7

/-- One UTC day in milliseconds. -/
def dayMs : Int := 86400000

/-- `utcDayStartIso` on the millisecond timeline: truncate a timestamp to
its UTC midnight (floor to a multiple of 86400000). -/
def utcDayStart (t : Int) : Int := dayMs * (t.fdiv dayMs)

/-- `daysBackIso`: start of the `days`-day window ending at the UTC
midnight of `nowMs`. -/
def windowStart (days : ℕ) (nowMs : Int) : Int :=
  utcDayStart nowMs - ((days : Int) - 1) * dayMs

/-! ## Pearson correlation with diagnostics (`pearsonStats`) -/

/-- The rational part of `pearsonStats`: number of finite pairs, the sums
of deviation products/squares (`num`, `dx`, `dy` in the source loop), the
`degenerate` flag and the reported (6-decimal-rounded) sample variances.
The source tests `!den` with `den = Math.sqrt(dx)*Math.sqrt(dy)`; since
`dx, dy ≥ 0`, `√dx·√dy = 0` exactly when `dx = 0 ∨ dy = 0`, which is the
decidable form used here (proved as `sqrt_mul_sqrt_eq_zero_iff`). -/
structure PearsonCore where
  n_effective : ℕ
  num : ℚ
  dx : ℚ
  dy : ℚ
  degenerate : Bool
  variance_x : ℚ
  variance_y : ℚ
deriving Repr, DecidableEq

/-- `pearsonStats` up to (but not including) the `sqrt` division.  Inputs
are `Option ℚ` so that `none` models a non-finite value (`undefined`),
matching the `Number.isFinite(x) && Number.isFinite(y)` pair filter. -/
def finitePairs (xs ys : List (Option ℚ)) : List (ℚ × ℚ) :=
  (List.zip xs ys).filterMap
    (fun p => match p with | (some x, some y) => some (x, y) | _ => none)

def pearsonCore (xs ys : List (Option ℚ)) : PearsonCore :=
  let pairs := finitePairs xs ys
  let n := pairs.length
  if n < 3 then
    { n_effective := n, num := 0, dx := 0, dy := 0, degenerate := true
      variance_x := 0, variance_y := 0 }
  else
    let mx := (pairs.map Prod.fst).sum / n
    let my := (pairs.map Prod.snd).sum / n
    let num := (pairs.map (fun p => (p.1 - mx) * (p.2 - my))).sum
    let dx := (pairs.map (fun p => (p.1 - mx) ^ 2)).sum
    let dy := (pairs.map (fun p => (p.2 - my) ^ 2)).sum
    { n_effective := n, num := num, dx := dx, dy := dy
      degenerate := decide (dx = 0 ∨ dy = 0)
      variance_x := roundTo 6 (dx / (n - 1)), variance_y := roundTo 6 (dy / (n - 1)) }

/-- The `r` field of `pearsonStats`: `0` when degenerate, otherwise
`num / (√dx·√dy)` clamped to `[-1,1]` and rounded to 4 decimals. -/
noncomputable def pearsonR (xs ys : List (Option ℚ)) : ℝ :=
  let c := pearsonCore xs ys
  if c.degenerate then 0
  else roundToR 4 (max (-1) (min 1 ((c.num : ℝ) / (Real.sqrt c.dx * Real.sqrt c.dy))))

/-- Result record of `computeLagStats`. -/
structure LagStat where
  r : ℝ
  n_effective : ℕ
  degenerate : Bool
  n_pairs : ℕ

/-- JS array access `ys[j]` for a possibly fractional index `j` (a
fractional or out-of-range index yields `undefined`, i.e. `none`). -/
def jsIndex (ys : List ℚ) (j : ℚ) : Option ℚ :=
  if j.den = 1 ∧ 0 ≤ j.num ∧ j.num < (ys.length : ℤ) then some (ys.getD j.num.toNat 0)
  else none

/-- The shifted x-side of `computeLagStats`: keep `xs[i]` for every `i`
with `0 ≤ i+lag < n` (`n = min` of the lengths). -/
def lagXs (xs ys : List ℚ) (lag : ℚ) : List (Option ℚ) :=
  (List.range (min xs.length ys.length)).filterMap
    (fun (i : ℕ) =>
      if 0 ≤ (i : ℚ) + lag ∧ (i : ℚ) + lag < ((min xs.length ys.length : ℕ) : ℚ) then
        some (some (xs.getD i 0))
      else none)

/-- The shifted y-side of `computeLagStats`: for the same kept `i`,
`ys[i+lag]` (which is `undefined` for a fractional `lag`). -/
def lagYs (xs ys : List ℚ) (lag : ℚ) : List (Option ℚ) :=
  (List.range (min xs.length ys.length)).filterMap
    (fun (i : ℕ) =>
      if 0 ≤ (i : ℚ) + lag ∧ (i : ℚ) + lag < ((min xs.length ys.length : ℕ) : ℚ) then
        some (jsIndex ys ((i : ℚ) + lag))
      else none)

/-- `computeLagStats(xs, ys, lagDays)`. -/
noncomputable def computeLagStats (xs ys : List ℚ) (lag : ℚ) : LagStat :=
  let ax := lagXs xs ys lag
  let ay := lagYs xs ys lag
  let s := pearsonCore ax ay
  let deg := s.degenerate || decide (s.n_effective < 3)
  { r := if deg then 0 else pearsonR ax ay
    n_effective := s.n_effective, degenerate := deg, n_pairs := ax.length }

/-! ## Daily series builders -/

/-- One row of the drift daily series:
`{ t, drift_events, drift_unique_modules }` with the module set kept
explicitly (its size is `drift_unique_modules`). -/
structure DriftRow where
  t : Int
  events : ℕ
  modules : List String
deriving Repr, DecidableEq

/-- The `Date.parse(e.ts)` value of a drift event line (the `ts` field is
a string for lines kept by the series `parseJsonlSafe`). -/
def eventTsMs (dateParse : String → Option Int) (j : Json) : Option Int :=
  match j.get? "ts" with
  | some (.str s) => dateParse s
  | _ => none

/-- Processing one drift event against the prefilled rows: skip when
`Date.parse` gave `NaN` or `0` (the `!ts` test) or the timestamp is
outside `[startMs, endMs)`; otherwise bump the row keyed by the event's
UTC day (a missing key is a no-op, `if (!r) continue`). -/
def driftStep (dateParse : String → Option Int) (startMs endMs : Int)
    (rows : List DriftRow) (j : Json) : List DriftRow :=
  match eventTsMs dateParse j with
  | none => rows
  | some ts =>
    if ts = 0 ∨ ts < startMs ∨ endMs ≤ ts then rows
    else
      rows.map (fun r =>
        if r.t = utcDayStart ts then
          { r with
            events := r.events + 1
            modules :=
              match j.get? "module" with
              | some (.str m) =>
                if m ≠ "" ∧ m ∉ r.modules then r.modules ++ [m] else r.modules
              | _ => r.modules }
        else r)

/-- `buildDriftDailySeries({eventsPath, window, nowMs})`: prefill one row
per UTC day of the window, then fold the filtered event log over the
rows. -/
def buildDriftDailySeries (dateParse : String → Option Int) (file : JsonlFile)
    (window : String) (nowMs : Int) : List DriftRow :=
  let days := windowToDays window
  let start := windowStart days nowMs
  let startMs := start
  let endMs := utcDayStart nowMs + dayMs
  let prefill := (List.range days).map
    (fun (i : ℕ) => { t := start + (i : Int) * dayMs, events := 0, modules := [] : DriftRow })
  (parseJsonlSafeDriftSeries file).foldl (driftStep dateParse startMs endMs) prefill

/-- One row of the risk daily series:
`{ t, risk_events, risk_score_avg, risk_score_p95 }`; the per-day score
list is carried explicitly, the averages are computed at the end. -/
structure RiskRow where
  t : Int
  n : ℕ
  scores : List ℚ
deriving Repr, DecidableEq

/-- Final shape of one risk-series entry. -/
structure RiskDay where
  t : Int
  risk_events : ℕ
  risk_score_avg : ℚ
  risk_score_p95 : ℚ
deriving Repr, DecidableEq

/-- A timestamp candidate as returned by `extractTs`: either a trimmed
string (to be handed to `Date.parse`) or a millisecond value obtained
from a numeric epoch candidate (the source re-encodes it as an ISO string
which the caller parses back to the same milliseconds). -/
inductive TsVal where
  | s : String → TsVal
  | ms : Int → TsVal
deriving Repr, DecidableEq

/-- JS `Number(q)` truncation to an integer millisecond count, as done by
`new Date(ms)` (`ToIntegerOrInfinity` truncates towards zero). -/
def truncToInt (q : ℚ) : Int := q.num / (q.den : Int)

/-- Largest valid JS `Date` time value (±8.64e15 ms). -/
def maxDateMs : Int := 8640000000000000

/-- One candidate step of the `extractTs` loop: a nonempty-trim string is
returned trimmed; a finite number is interpreted as epoch milliseconds
(`≥ 1e12`) or seconds, and kept when it is a valid `Date`. -/
def tsCandidate : Option Json → Option TsVal
  | some (.str s) => if s.trim ≠ "" then some (.s s.trim) else none
  | some (.num q) =>
    let ms := if (10 : ℚ) ^ 12 ≤ q then q else q * 1000
    let msi := truncToInt ms
    if msi.natAbs ≤ maxDateMs.natAbs then some (.ms msi) else none
  | _ => none

/-- The ordered candidate list of `extractTs`. -/
def tsCandidates (j : Json) : List (Option Json) :=
  [ j.get? "ts", j.get? "time", j.get? "timestamp", j.get? "at",
    j.get? "generated_at", j.get? "created_at", j.get? "createdAt",
    j.get? "updated_at", j.get? "updatedAt",
    j.get2? "event" "ts", j.get2? "event" "time", j.get2? "event" "timestamp",
    j.get2? "meta" "ts", j.get2? "meta" "time", j.get2? "meta" "timestamp",
    j.get2? "snapshot" "ts", j.get2? "snapshot" "time",
    j.get2? "snapshot" "timestamp", j.get2? "snapshot" "generated_at",
    j.get2? "snapshot" "created_at", j.get2? "snapshot" "createdAt",
    j.get2? "snapshot" "updated_at", j.get2? "snapshot" "updatedAt",
    j.get2? "receipt" "ts", j.get2? "audit" "ts", j.get2? "result" "ts",
    j.get? "ts_ms", j.get? "time_ms", j.get? "timestamp_ms",
    j.get? "ts_s", j.get? "time_s", j.get? "timestamp_s" ]

/-- The last-resort branch of `extractTs`: `obj.ts || obj.time ||
obj.timestamp` as a string holding a number (`Number(alt)` is the
external string-to-number conversion `numParse`). -/
def tsLastResort (numParse : String → Option ℚ) (j : Json) : Option TsVal :=
  let alt : Option Json := [j.get? "ts", j.get? "time", j.get? "timestamp"].foldl
    (fun acc c => match acc with
      | some v => some v
      | none => match c with
        | some v => if v.truthy then some v else none
        | none => none)
    none
  match alt with
  | some (.str s) =>
    if s.trim ≠ "" then
      match numParse s with
      | some n =>
        let ms := if (10 : ℚ) ^ 12 ≤ n then n else n * 1000
        let msi := truncToInt ms
        if msi.natAbs ≤ maxDateMs.natAbs then some (.ms msi) else none
      | none => none
    else none
  | _ => none

/-- `extractTs(obj)`: first successful candidate, else the last resort. -/
def extractTs (numParse : String → Option ℚ) (j : Json) : Option TsVal :=
  match (tsCandidates j).foldl
      (fun acc c => match acc with
        | some v => some v
        | none => tsCandidate c)
      none with
  | some v => some v
  | none => tsLastResort numParse j

/-- `extractRiskScore(obj)`: first non-nullish of `risk_score`,
`snapshot.risk_score`, `snapshot.risk.score`, `risk.score`, converted by
`Number(...)` (`none` = NaN; non-primitive candidates are treated as NaN,
a coarsening of JS array-to-string coercion that no modelled caller
exercises). -/
def extractRiskScore (numParse : String → Option ℚ) (j : Json) : Option ℚ :=
  let cand : Option Json := [j.get? "risk_score", j.get2? "snapshot" "risk_score",
    (j.get2? "snapshot" "risk").bind (fun v => v.get? "score"),
    j.get2? "risk" "score"].foldl
    (fun acc c => match acc with
      | some v => some v
      | none => match c with
        | some Json.null => none
        | some v => some v
        | none => none)
    none
  match cand with
  | some (.num q) => some q
  | some (.str s) => numParse s
  | some (.bool b) => some (if b then 1 else 0)
  | _ => none

attribute [irreducible] extractTs extractRiskScore

/-- The millisecond timestamp a risk record resolves to:
`Date.parse(extractTs(obj))` (string candidates via `dateParse`, numeric
epoch candidates already in milliseconds). -/
def riskTsMs (dateParse : String → Option Int) (numParse : String → Option ℚ)
    (j : Json) : Option Int :=
  match extractTs numParse j with
  | some (.s s) => dateParse s
  | some (.ms m) => some m
  | none => none

/-- Processing one audit record: skip on unparsable/zero/out-of-window
timestamps, otherwise bump the day row's count and (when a score
resolves) append the score. -/
def riskStep (dateParse : String → Option Int) (numParse : String → Option ℚ)
    (startMs endMs : Int) (rows : List RiskRow) (j : Json) : List RiskRow :=
  match riskTsMs dateParse numParse j with
  | none => rows
  | some ts =>
    if ts = 0 ∨ ts < startMs ∨ endMs ≤ ts then rows
    else
      rows.map (fun r =>
        if r.t = utcDayStart ts then
          { r with
            n := r.n + 1
            scores :=
              match extractRiskScore numParse j with
              | some sc => r.scores ++ [sc]
              | none => r.scores }
        else r)

/-- Sort a list of scores ascending (`scores.sort((a,b) => a-b)`). -/
def sortQ (l : List ℚ) : List ℚ := l.insertionSort (· ≤ ·)

/-- Turn an accumulated risk row into its published entry:
`risk_score_avg` is the mean (0 if empty), `risk_score_p95` the
interpolated 0.95 quantile (0 if empty), both rounded to 2 decimals. -/
def riskFinalize (r : RiskRow) : RiskDay :=
  let scores := sortQ r.scores
  let avg : ℚ := if scores.length = 0 then 0 else scores.sum / scores.length
  let p95 : ℚ := if scores.length = 0 then 0 else jsQuantile scores (95 / 100)
  { t := r.t, risk_events := r.n
    risk_score_avg := roundTo 2 avg, risk_score_p95 := roundTo 2 p95 }

/-- `readRiskTrendFromAuditJsonl({auditPath, window, nowMs})` (the body
of `buildRiskDailySeries`, which is a thin re-export). -/
def buildRiskDailySeries (dateParse : String → Option Int)
    (numParse : String → Option ℚ) (file : JsonlFile)
    (window : String) (nowMs : Int) : List RiskDay :=
  let days := windowToDays window
  let startMs := windowStart days nowMs
  let endMs := startMs + (days : Int) * dayMs
  let prefill := (List.range days).map
    (fun (i : ℕ) => { t := startMs + (i : Int) * dayMs, n := 0, scores := [] : RiskRow })
  ((parseJsonlSafeAudit file).foldl (riskStep dateParse numParse startMs endMs)
    prefill).map riskFinalize

/-! ## Drift trend analyzer and dominance (drift analytics module) -/

/-- A per-module aggregation record (`{module, drift_units, boundary}`;
the analyzer always sets `boundary` to `undefined`).  An absent metric
field reads as 0 (`Number(m?.[metric] ?? 0)`), which `mval` encodes. -/
structure MRec where
  module : String
  drift_units : ℚ
  boundary : Option String
deriving Repr, DecidableEq

/-- `Number(m?.[metric] ?? 0)` for a record carrying only `drift_units`. -/
def mval (metric : String) (m : MRec) : ℚ :=
  if metric = "drift_units" then m.drift_units else 0

/-- One `ModuleContribution` (`{module, contribution, share, rank}`). -/
structure Contribution where
  module : String
  contribution : ℚ
  share : ℚ
  rank : ℕ
deriving Repr, DecidableEq

/-- One per-boundary share entry. -/
structure BoundaryShare where
  boundary : String
  contribution : ℚ
  share : ℚ
deriving Repr, DecidableEq

/-- The `cross_boundary` sub-object (the constant `note` is omitted). -/
structure CrossBoundary where
  is_cross_boundary : Bool
  boundaries : List BoundaryShare
deriving Repr, DecidableEq

/-- The `DominanceSummary` output of `computeDriftDominance`. -/
structure DominanceSummary where
  metric : String
  top_n : ℕ
  total_contribution : ℚ
  top_modules : List Contribution
  dominance_ratio : ℚ
  top3_share : ℚ
  cross_boundary : CrossBoundary
deriving Repr, DecidableEq

/-- The stable-sort preorder of the module comparator:
value descending, then module name ascending (`localeCompare` modelled
as the code-point order on strings). -/
def modBefore (metric : String) (a b : MRec) : Prop :=
  mval metric b < mval metric a ∨
    (mval metric a = mval metric b ∧ a.module ≤ b.module)

instance (metric : String) : DecidableRel (modBefore metric) := fun a b => by
  unfold modBefore; infer_instance

/-- The same preorder for boundary entries. -/
def bdBefore (a b : String × ℚ) : Prop :=
  b.2 < a.2 ∨ (a.2 = b.2 ∧ a.1 ≤ b.1)

instance : DecidableRel bdBefore := fun a b => by
  unfold bdBefore; infer_instance

/-- Add `v` to the entry for key `k` of an association list (insertion
order preserved), creating it at the end if absent — the JS
`map[k] = (map[k] || 0) + v` / `Map.set` pattern. -/
def bumpAssoc (l : List (String × ℚ)) (k : String) (v : ℚ) : List (String × ℚ) :=
  if l.any (fun p => p.1 = k) then
    l.map (fun p => if p.1 = k then (p.1, p.2 + v) else p)
  else l ++ [(k, v)]

/-- `computeDriftDominance({modules, metric, topN})`. -/
def computeDriftDominance (modules : List MRec) (metric : String) (topN : ℕ) :
    DominanceSummary :=
  if modules.length = 0 then
    { metric := metric, top_n := topN, total_contribution := 0, top_modules := []
      dominance_ratio := 0, top3_share := 0
      cross_boundary := { is_cross_boundary := false, boundaries := [] } }
  else
    let sorted := modules.insertionSort (modBefore metric)
    let total := (sorted.map (mval metric)).sum
    let top_modules := (sorted.take topN).enum.map
      (fun p => { module := p.2.module, contribution := mval metric p.2
                  share := if 0 < total then mval metric p.2 / total else 0
                  rank := p.1 + 1 : Contribution })
    let dominance_ratio := match top_modules with | c :: _ => c.share | [] => 0
    let top3_share := ((top_modules.take 3).map Contribution.share).sum
    let boundaryMap := sorted.foldl
      (fun acc m =>
        match m.boundary with
        | some b => if b ≠ "" then bumpAssoc acc b (mval metric m) else acc
        | none => acc)
      []
    let boundaries := (boundaryMap.insertionSort bdBefore).map
      (fun p => { boundary := p.1, contribution := p.2
                  share := if 0 < total then p.2 / total else 0 : BoundaryShare })
    { metric := metric, top_n := topN, total_contribution := total
      top_modules := top_modules, dominance_ratio := dominance_ratio
      top3_share := top3_share
      cross_boundary := { is_cross_boundary := decide (1 < boundaries.length)
                          boundaries := boundaries } }

/-- A JS value used as a `Set` member or `Map` key, with SameValueZero
identity: primitives (`undefined`, `null`, booleans, numbers, strings)
compare by value; objects and arrays compare by reference.  Since each
JSONL line is produced by its own `JSON.parse`, no two events can share
an object reference, so a non-primitive value is identified by the index
of the event that carries it. -/
inductive JsVal where
  | undef : JsVal
  | null : JsVal
  | bool : Bool → JsVal
  | num : ℚ → JsVal
  | str : String → JsVal
  | ref : ℕ → JsVal
deriving Repr, DecidableEq

/-- JS truthiness of such a value (`undefined`, `null`, `false`, `0`,
`""` are falsy; objects and arrays are always truthy). -/
def JsVal.truthy : JsVal → Bool
  | .undef => false
  | .null => false
  | .bool b => b
  | .num q => q ≠ 0
  | .str s => s ≠ ""
  | .ref _ => true

/-- The raw `e.module` of the event at position `i`, as the value JS adds
to `new Set(current.map((e) => e.module))`: absent gives `undefined`,
primitives keep their value, an object/array module is the fresh
reference of line `i`. -/
def moduleVal (i : ℕ) (j : Json) : JsVal :=
  match j.get? "module" with
  | none => .undef
  | some Json.null => .null
  | some (.bool b) => .bool b
  | some (.num q) => .num q
  | some (.str s) => .str s
  | some (.arr _) => .ref i
  | some (.obj _) => .ref i

/-- The counts-map key of the event at position `i`:
`e?.module || "unknown"` defaults only falsy module values to the string
`"unknown"`; a truthy non-string (number, `true`, object) stays the key
itself. -/
def moduleKey (i : ℕ) (j : Json) : JsVal :=
  if (moduleVal i j).truthy then moduleVal i j else .str "unknown"

/-- The event's string module, if any (used in claim statements to count
"distinct string modules"). -/
def moduleString (j : Json) : Option String :=
  match j.get? "module" with
  | some (.str s) => some s
  | _ => none

/-- ECMAScript `String(v)` as used by the sort comparators and by the
published `module` field of the per-module records: exact for
`undefined`/`null`/booleans/strings; number formatting and the
content-dependent stringification of an object/array (whose content the
reference tag does not carry) are taken as parameters.  No theorem in
this file depends on the value of either parameter. -/
def jsValToString (numToStr : ℚ → String) (refToStr : ℕ → String) : JsVal → String
  | .undef => "undefined"
  | .null => "null"
  | .bool b => if b then "true" else "false"
  | .num q => numToStr q
  | .str s => s
  | .ref i => refToStr i

/-- Project the string out of a set member (used to count "distinct
string modules" in statements about `unique_modules`). -/
def jsValStr : JsVal → Option String
  | .str s => some s
  | _ => none

/-- Output record of `analyzeDrift`. -/
structure AnalyzeOut where
  trend : String
  density : ℚ
  slope : ℚ
  expansion : ℕ
  unique_modules : ℕ
  unique_modules_prev : ℕ
  events_current : ℕ
  events_prev : ℕ
  modules : List MRec
  dominance : DominanceSummary
deriving Repr, DecidableEq

/-- Add one to the count of key `k` (insertion-ordered `Map` of counts,
keyed by SameValueZero on the raw module value). -/
def bumpCount (l : List (JsVal × ℕ)) (k : JsVal) : List (JsVal × ℕ) :=
  if l.any (fun p => p.1 = k) then
    l.map (fun p => if p.1 = k then (p.1, p.2 + 1) else p)
  else l ++ [(k, 1)]

/-- The current-window half of `analyzeDrift`'s event split
(`ts >= now - days` and a truthy `Date.parse`; the `!ts` test skips both
`NaN` and a timestamp of exactly 0). -/
def driftCurrent (dateParse : String → Option Int) (file : JsonlFile)
    (window : String) (nowMs : Int) : List Json :=
  (parseJsonlSafeDrift file).filter (fun j =>
    match eventTsMs dateParse j with
    | some ts => ts ≠ 0 ∧ nowMs - (windowToDays window : Int) * dayMs ≤ ts
    | none => false)

/-- The previous-window half (`now - 2·days ≤ ts < now - days`). -/
def driftPrevious (dateParse : String → Option Int) (file : JsonlFile)
    (window : String) (nowMs : Int) : List Json :=
  (parseJsonlSafeDrift file).filter (fun j =>
    match eventTsMs dateParse j with
    | some ts => ts ≠ 0 ∧ nowMs - 2 * (windowToDays window : Int) * dayMs ≤ ts ∧
        ts < nowMs - (windowToDays window : Int) * dayMs
    | none => false)

/-- `analyzeDrift({eventsPath, window})` of the drift analytics module.
`now = Date.now()` is passed explicitly; the two window halves are
`[now-days, now)`-style rolling ranges (not UTC-aligned). -/
def analyzeDrift (dateParse : String → Option Int) (numToStr : ℚ → String)
    (refToStr : ℕ → String) (file : JsonlFile)
    (window : String) (nowMs : Int) : AnalyzeOut :=
  let days := windowToDays window
  let current := driftCurrent dateParse file window nowMs
  let previous := driftPrevious dateParse file window nowMs
  let densityCurrent : ℚ := (current.length : ℚ) / days
  let densityPrev : ℚ := (previous.length : ℚ) / days
  let slope := densityCurrent - densityPrev
  let modulesCurrent := (current.enum.map (fun p => moduleVal p.1 p.2)).dedup
  let modulesPrev := (previous.enum.map (fun p => moduleVal p.1 p.2)).dedup
  let expansion : ℕ := modulesCurrent.length - modulesPrev.length
  let trend : String :=
    if slope > 1/2 then "accelerating"
    else if slope < -(1/2) then "cooling" else "stable"
  let counts := current.enum.foldl (fun acc p => bumpCount acc (moduleKey p.1 p.2)) []
  let modules := (counts.map
    (fun p => { module := jsValToString numToStr refToStr p.1
                drift_units := (p.2 : ℚ), boundary := none : MRec }))
    |>.insertionSort (modBefore "drift_units")
  let dominance := computeDriftDominance modules "drift_units" 5
  { trend := trend, density := roundTo 2 densityCurrent, slope := roundTo 2 slope
    expansion := expansion, unique_modules := modulesCurrent.length
    unique_modules_prev := modulesPrev.length
    events_current := current.length, events_prev := previous.length
    modules := modules, dominance := dominance }

/-! ## Block bootstrap robustness (`blockBootstrapR`) -/

/-- Robustness result record (`method` is the constant
`"block_bootstrap"` in the source and is omitted). -/
structure BootOut where
  subsamples : ℚ
  samples_used : ℕ
  degenerate_rate : ℚ
  median_r : ℝ
  iqr_r : ℝ
  stability : String
  is_informative : Bool

/-- `n = Math.min(xs.length, ys.length)` of the bootstrap. -/
def bootN (xs ys : List ℚ) : ℕ := min xs.length ys.length

/-- Number of loop iterations `for (s = 0; s < subsamples; s++)` for a
(possibly fractional) `subsamples`. -/
def bootNumIter (ss : ℚ) : ℕ := Int.toNat ⌈ss⌉

/-- JS array read `xs[idx]` for an `Int` index (`undefined` = `none` when
negative; the caller's `takeWhile` guard keeps `idx < n ≤ length`). -/
def fetchAt (xs : List ℚ) (idx : Int) : Option ℚ :=
  if 0 ≤ idx ∧ idx < (xs.length : Int) then some (xs.getD idx.toNat 0) else none

/-- The index sequence of bootstrap sample `s`: `blocks` draws of a
`blockSize`-long run starting at `Math.floor(Math.random()*max(1,
n-blockSize+1))`, with the `if (idx >= n) break` guard. -/
def bootIdxs (rand : ℕ → ℚ) (n blockSize : ℕ) (s : ℕ) : List Int :=
  let blocks := max 1 (n / blockSize)
  (List.range blocks).flatMap (fun b =>
    let start : Int := ⌊rand (s * blocks + b) * ((max 1 (n - blockSize + 1) : ℕ) : ℚ)⌋
    ((List.range blockSize).map (fun (k : ℕ) => start + (k : Int))).takeWhile
      (fun idx => idx < (n : Int)))

/-- The pair of value arrays (`bx`, `by`) of bootstrap sample `s`. -/
def bootPair (rand : ℕ → ℚ) (xs ys : List ℚ) (blockSize : ℕ) (s : ℕ) :
    List (Option ℚ) × List (Option ℚ) :=
  let idxs := bootIdxs rand (bootN xs ys) blockSize s
  (idxs.map (fetchAt xs), idxs.map (fetchAt ys))

/-- Is a bootstrap sample counted as degenerate
(`p.degenerate || p.n_effective < 3`)? -/
def bootDegenerate (p : List (Option ℚ) × List (Option ℚ)) : Bool :=
  (pearsonCore p.1 p.2).degenerate || decide ((pearsonCore p.1 p.2).n_effective < 3)

/-- The non-degenerate bootstrap samples, in draw order. -/
def bootValidPairs (rand : ℕ → ℚ) (xs ys : List ℚ) (ss : ℚ) (blockSize : ℕ) :
    List (List (Option ℚ) × List (Option ℚ)) :=
  ((List.range (bootNumIter ss)).map (bootPair rand xs ys blockSize)).filter
    (fun p => ¬ bootDegenerate p)

/-- `samples_used`. -/
def bootSamplesUsed (rand : ℕ → ℚ) (xs ys : List ℚ) (ss : ℚ) (blockSize : ℕ) : ℕ :=
  (bootValidPairs rand xs ys ss blockSize).length

/-- `degenerate_rate = Number((degenerateCount/subsamples).toFixed(4))`. -/
def bootDegRate (rand : ℕ → ℚ) (xs ys : List ℚ) (ss : ℚ) (blockSize : ℕ) : ℚ :=
  roundTo 4 (((bootNumIter ss - bootSamplesUsed rand xs ys ss blockSize : ℕ) : ℚ) / ss)

/-- Ascending sort of the collected r values (`rs.sort((a,b) => a-b)`). -/
noncomputable def sortR (l : List ℝ) : List ℝ := l.insertionSort (· ≤ ·)

/-- `blockBootstrapR(xs, ys, subsamples, blockSize)` with the injected
random stream. -/
noncomputable def blockBootstrapR (rand : ℕ → ℚ) (xs ys : List ℚ) (ss : ℚ)
    (blockSize : ℕ) : BootOut :=
  if bootN xs ys < 3 then
    { subsamples := ss, samples_used := 0, degenerate_rate := 1, median_r := 0
      iqr_r := 0, stability := "low", is_informative := false }
  else
    let samples_used := bootSamplesUsed rand xs ys ss blockSize
    let degenerate_rate := bootDegRate rand xs ys ss blockSize
    let is_informative := decide (20 ≤ samples_used) && decide (degenerate_rate ≤ 1/2)
    if is_informative = false then
      { subsamples := ss, samples_used := samples_used
        degenerate_rate := degenerate_rate, median_r := 0, iqr_r := 0
        stability := "low", is_informative := false }
    else
      let rs := sortR ((bootValidPairs rand xs ys ss blockSize).map
        (fun p => pearsonR p.1 p.2))
      let median := jsQuantile rs (1/2)
      let q1 := jsQuantile rs (1/4)
      let q3 := jsQuantile rs (3/4)
      let iqr := max 0 (q3 - q1)
      let stability : String :=
        if 1/2 ≤ |median| ∧ iqr ≤ 1/5 then "high"
        else if 3/10 ≤ |median| ∧ iqr ≤ 35/100 then "medium" else "low"
      { subsamples := ss, samples_used := samples_used
        degenerate_rate := degenerate_rate
        median_r := roundToR 4 (max (-1) (min 1 median))
        iqr_r := roundToR 4 iqr, stability := stability, is_informative := true }

/-! ## Association bundle (`buildAssociationBundle`) -/

/-- One `{t, x, y}` entry of the joint series. -/
structure XY where
  t : Int
  x : ℚ
  y : ℚ
deriving Repr, DecidableEq

/-- Metric dispatch for the x side (`drift_density` ≡ daily event count
for the day bucket). -/
def metricXVal (metricX : String) (d : DriftRow) : ℚ :=
  if metricX = "drift_unique_modules" then (d.modules.length : ℚ)
  else if metricX = "drift_events" then (d.events : ℚ)
  else (d.events : ℚ)

/-- Metric dispatch for the y side. -/
def metricYVal (metricY : String) (r : RiskDay) : ℚ :=
  if metricY = "risk_events" then (r.risk_events : ℚ)
  else if metricY = "risk_score_p95" then r.risk_score_p95
  else r.risk_score_avg

/-- `buildXYSeries`: align the two daily series by index, truncated to
the shorter, carrying the drift side's day stamp. -/
def buildXYSeries (driftDaily : List DriftRow) (riskDaily : List RiskDay)
    (metricX metricY : String) : List XY :=
  (driftDaily.zip riskDaily).map
    (fun p => { t := p.1.t, x := metricXVal metricX p.1, y := metricYVal metricY p.2 })

/-- One lag-sweep output entry. -/
structure LagEntry where
  lag_days : ℚ
  r : ℝ
  n : ℕ
  n_pairs : ℕ
  n_effective : ℕ
  degenerate : Bool

/-- The published Pearson block of the bundle. -/
structure PearsonOut where
  r : ℝ
  n : ℕ
  n_effective : ℕ
  degenerate : Bool
  variance_x : ℚ
  variance_y : ℚ

/-- The diagnostics block (`missing_policy` is constant `"zero_fill"`). -/
structure Diagnostics where
  window_days : ℕ
  nonzero_x_days : ℕ
  nonzero_y_days : ℕ
  nonzero_overlap_days : ℕ
  notes : List String
deriving Repr, DecidableEq

/-- The `association_bundle` (v2) output (constant `kind`/`v` tags and
`generated_at` omitted). -/
structure AssocBundle where
  window : String
  bucket : String
  metric_x : String
  metric_y : String
  series : List XY
  diagnostics : Diagnostics
  pearson : PearsonOut
  lags : List LagEntry
  robustness : BootOut

/-- `maxLag`: `lags == null` gives `clamp(days, 3, 14)`, otherwise
`clamp(Number(lags) || 0, 0, 14)`.  `lagsArg = none` is `null`;
`some none` is a value whose `Number` is `NaN` (which `|| 0` turns into
0); `some (some q)` is a numeric value `q` (`|| 0` maps 0 to 0). -/
def maxLagOf (window : String) (lagsArg : Option (Option ℚ)) : ℚ :=
  match lagsArg with
  | none => jsClamp ((windowToDays window : ℕ) : ℚ) 3 14
  | some v => jsClamp (match v with | some q => q | none => 0) 0 14

/-- `ss = clamp(Number(subsamples) || 100, 20, 500)` (`none` = `NaN`). -/
def ssOf (subsArg : Option ℚ) : ℚ :=
  jsClamp (match subsArg with
    | none => 100
    | some q => if q = 0 then 100 else q) 20 500

/-- The `lag_days` grid of the sweep loop
`for (lag = -maxLag; lag <= maxLag; lag++)`. -/
def lagGrid (m : ℚ) : List ℚ :=
  if m < 0 then []
  else (List.range (Int.toNat ⌊2 * m⌋ + 1)).map (fun (k : ℕ) => -m + (k : ℚ))

/-- One lag-sweep entry (`n` is the full joint-series length). -/
noncomputable def mkLagEntry (xs ys : List ℚ) (nTotal : ℕ) (lag : ℚ) : LagEntry :=
  let s := computeLagStats xs ys lag
  { lag_days := lag, r := s.r, n := nTotal, n_pairs := s.n_pairs
    n_effective := s.n_effective, degenerate := s.degenerate }

/-- `buildAssociationBundle`.  File-path resolution (`eventsPath`,
`auditPath`, the `.mindforge` defaults and `existsSync` fallback) is
plumbing outside the core: the two log files are taken directly. -/
noncomputable def buildAssociationBundle (dateParse : String → Option Int)
    (numParse : String → Option ℚ) (rand : ℕ → ℚ)
    (driftFile auditFile : JsonlFile) (window bucket metric_x metric_y : String)
    (lagsArg : Option (Option ℚ)) (subsArg : Option ℚ) (nowMs : Int) :
    AssocBundle :=
  let maxLag := maxLagOf window lagsArg
  let ss := ssOf subsArg
  let driftDaily := buildDriftDailySeries dateParse driftFile window nowMs
  let riskDaily := buildRiskDailySeries dateParse numParse auditFile window nowMs
  let series := buildXYSeries driftDaily riskDaily metric_x metric_y
  let xs := series.map XY.x
  let ys := series.map XY.y
  let nTotal := series.length
  let nonzero_x_days := (series.filter (fun s => s.x ≠ 0)).length
  let nonzero_y_days := (series.filter (fun s => s.y ≠ 0)).length
  let nonzero_overlap_days := (series.filter (fun s => s.x ≠ 0 ∧ s.y ≠ 0)).length
  let p := pearsonCore (xs.map some) (ys.map some)
  let notes : List String :=
    (if nonzero_x_days < 3 then ["sparse_x"] else []) ++
    (if nonzero_y_days < 3 then ["sparse_y"] else []) ++
    (if nonzero_overlap_days < 3 then ["low_overlap"] else []) ++
    (if p.degenerate ∧ p.variance_y = 0 then ["degenerate_y"] else []) ++
    (if p.degenerate ∧ p.variance_x = 0 then ["degenerate_x"] else [])
  { window := window, bucket := bucket, metric_x := metric_x, metric_y := metric_y
    series := series
    diagnostics :=
      { window_days := nTotal, nonzero_x_days := nonzero_x_days
        nonzero_y_days := nonzero_y_days
        nonzero_overlap_days := nonzero_overlap_days, notes := notes }
    pearson :=
      { r := if p.degenerate then 0 else pearsonR (xs.map some) (ys.map some)
        n := nTotal, n_effective := p.n_effective, degenerate := p.degenerate
        variance_x := p.variance_x, variance_y := p.variance_y }
    lags := (lagGrid maxLag).map (mkLagEntry xs ys nTotal)
    robustness := blockBootstrapR rand xs ys ss 2 }

/-- C3 counterexample input: six modules with weights 6..1 and the
default `topN = 5` — the five published `ModuleContribution`s carry
shares summing to `20/21`, not 1. -/
def domSixModules : List MRec :=
  [{ module := "a", drift_units := 6, boundary := none },
   { module := "b", drift_units := 5, boundary := none },
   { module := "c", drift_units := 4, boundary := none },
   { module := "d", drift_units := 3, boundary := none },
   { module := "e", drift_units := 2, boundary := none },
   { module := "f", drift_units := 1, boundary := none }]

/-- A placeholder lag entry for `getD`. -/
noncomputable def lagEntryDefault : LagEntry :=
  { lag_days := 0, r := 0, n := 0, n_pairs := 0, n_effective := 0, degenerate := false }

/-! ## Witnesses for the settled claims -/

/-- A well-formed drift event line used by witnesses. -/
def sampleDriftEvent : Json :=
  Json.obj [("kind", Json.str "drift_event"), ("v", Json.num 2),
            ("ts", Json.str "2026-01-01T00:00:00.000Z")]

/-- A drift event line whose `module` field is JSON `null`: it passes the
analytics reader's `kind`/`v` filter, `new Set(...)` keeps `null` as a
member distinct from `undefined`, and `null || "unknown"` defaults it in
the counts map. -/
def moduleNullEvent : Json :=
  Json.obj [("kind", Json.str "drift_event"), ("v", Json.num 2),
            ("ts", Json.str "2026-01-02T00:00:00.000Z"), ("module", Json.null)]

/-- Abbreviation: the x-value array handed by the bundle to the
statistics (`series.map(s => s.x)`). -/
def bundleXs (dateParse : String → Option Int) (numParse : String → Option ℚ)
    (driftFile auditFile : JsonlFile) (window metric_x metric_y : String)
    (nowMs : Int) : List ℚ :=
  (buildXYSeries (buildDriftDailySeries dateParse driftFile window nowMs)
    (buildRiskDailySeries dateParse numParse auditFile window nowMs)
    metric_x metric_y).map XY.x

/-- Abbreviation: the y-value array handed by the bundle to the
statistics. -/
def bundleYs (dateParse : String → Option Int) (numParse : String → Option ℚ)
    (driftFile auditFile : JsonlFile) (window metric_x metric_y : String)
    (nowMs : Int) : List ℚ :=
  (buildXYSeries (buildDriftDailySeries dateParse driftFile window nowMs)
    (buildRiskDailySeries dateParse numParse auditFile window nowMs)
    metric_x metric_y).map XY.y

/-! ## Scenario D: perfect linear association (C8) -/

/-- Scenario D input: `X = [1..10]`. -/
def scenarioX : List ℚ := [1, 2, 3, 4, 5, 6, 7, 8, 9, 10]

/-- Scenario D input: `Y = 2X + 1`. -/
def scenarioY : List ℚ := [3, 5, 7, 9, 11, 13, 15, 17, 19, 21]

/-! ## Daily-series window invariants (C2) -/

/-- The per-row action of one drift event (the `rows.map` body of
`driftStep`). -/
def driftStepOne (dateParse : String → Option Int) (startMs endMs : Int)
    (j : Json) (r : DriftRow) : DriftRow :=
  match eventTsMs dateParse j with
  | none => r
  | some ts =>
    if ts = 0 ∨ ts < startMs ∨ endMs ≤ ts then r
    else if r.t = utcDayStart ts then
      { r with
        events := r.events + 1
        modules :=
          match j.get? "module" with
          | some (.str m) =>
            if m ≠ "" ∧ m ∉ r.modules then r.modules ++ [m] else r.modules
          | _ => r.modules }
    else r

/-- Does event `j` land in the bucket keyed `t0` (valid nonzero parse,
in-window, UTC day `t0`)? -/
def driftContributes (dateParse : String → Option Int) (startMs endMs t0 : Int)
    (j : Json) : Prop :=
  ∃ ts, eventTsMs dateParse j = some ts ∧ ts ≠ 0 ∧ startMs ≤ ts ∧ ts < endMs ∧
    utcDayStart ts = t0

/-- The per-row action of one audit record. -/
def riskStepOne (dateParse : String → Option Int) (numParse : String → Option ℚ)
    (startMs endMs : Int) (j : Json) (r : RiskRow) : RiskRow :=
  match riskTsMs dateParse numParse j with
  | none => r
  | some ts =>
    if ts = 0 ∨ ts < startMs ∨ endMs ≤ ts then r
    else if r.t = utcDayStart ts then
      { r with
        n := r.n + 1
        scores :=
          match extractRiskScore numParse j with
          | some sc => r.scores ++ [sc]
          | none => r.scores }
    else r

/-- Does audit record `j` land in the bucket keyed `t0`? -/
def riskContributes (dateParse : String → Option Int) (numParse : String → Option ℚ)
    (startMs endMs t0 : Int) (j : Json) : Prop :=
  ∃ ts, riskTsMs dateParse numParse j = some ts ∧ ts ≠ 0 ∧ startMs ≤ ts ∧
    ts < endMs ∧ utcDayStart ts = t0

/-- Placeholder rows for `getD`. -/
def driftRowDefault : DriftRow := { t := 0, events := 0, modules := [] }

def riskDayDefault : RiskDay :=
  { t := 0, risk_events := 0, risk_score_avg := 0, risk_score_p95 := 0 }

/-! ## Joint-series alignment inside one bundle call (C9) -/

def xyDefault : XY := { t := 0, x := 0, y := 0 }

/-! ## Theorems -/

/-- `round` is monotone (via `round x = ⌊x + 1/2⌋`). -/
theorem round_mono_real {x y : ℝ} (h : x ≤ y) : round x ≤ round y := by
  rw [round_eq, round_eq]
  exact Int.floor_le_floor (by linarith)

/-- Helper: rounding to `p` decimals maps `[-1, 1]` into itself. -/
theorem roundToR_mem_of_abs_le_one {x : ℝ} (p : ℕ) (h1 : -1 ≤ x) (h2 : x ≤ 1) :
    -1 ≤ roundToR p x ∧ roundToR p x ≤ 1 := by
  have hp : (0:ℝ) < 10 ^ p := by positivity
  have hup : round (x * 10 ^ p) ≤ (10 : ℤ) ^ p := by
    have h' : x * 10 ^ p ≤ ((10 ^ p : ℤ) : ℝ) := by push_cast; nlinarith
    calc round (x * 10 ^ p) ≤ round (((10 ^ p : ℤ) : ℝ)) := round_mono_real h'
      _ = (10 : ℤ) ^ p := by rw [round_intCast]
  have hlo : -(10 : ℤ) ^ p ≤ round (x * 10 ^ p) := by
    have h' : ((-(10 ^ p) : ℤ) : ℝ) ≤ x * 10 ^ p := by push_cast; nlinarith
    calc -(10 : ℤ) ^ p = round (((-(10 ^ p) : ℤ) : ℝ)) := by rw [round_intCast]
      _ ≤ round (x * 10 ^ p) := round_mono_real h'
  constructor
  · rw [roundToR, le_div_iff₀ hp]
    have h'' : ((-(10 ^ p) : ℤ) : ℝ) ≤ ((round (x * 10 ^ p) : ℤ) : ℝ) := by
      exact_mod_cast hlo
    push_cast at h'' ⊢
    nlinarith
  · rw [roundToR, div_le_one hp]
    exact_mod_cast hup

/-- The Pearson `r` produced by the engine is always in `[-1, 1]`. -/
theorem pearsonR_mem_Icc (xs ys : List (Option ℚ)) :
    -1 ≤ pearsonR xs ys ∧ pearsonR xs ys ≤ 1 := by
  rw [pearsonR]
  by_cases h : (pearsonCore xs ys).degenerate
  · simp [h]
  · simp only [h, if_false, Bool.false_eq_true]
    apply roundToR_mem_of_abs_le_one
    · exact le_max_left _ _
    · exact max_le (by norm_num) (min_le_left _ _)

/-- The `r` of every lag entry is in `[-1, 1]`. -/
theorem computeLagStats_r_mem_Icc (xs ys : List ℚ) (lag : ℚ) :
    -1 ≤ (computeLagStats xs ys lag).r ∧ (computeLagStats xs ys lag).r ≤ 1 := by
  rw [computeLagStats]
  by_cases h : ((pearsonCore (lagXs xs ys lag) (lagYs xs ys lag)).degenerate ||
      decide ((pearsonCore (lagXs xs ys lag) (lagYs xs ys lag)).n_effective < 3)) = true
  · simp only [h, if_true]
    norm_num
  · simp only [h, if_false, Bool.false_eq_true]
    exact pearsonR_mem_Icc _ _

/-! ## Log reader properties (C6) -/

theorem foldl_push_driftSeries (lines : List (Option Json)) :
    ∀ acc : List Json,
      lines.foldl
        (fun out l =>
          match l with
          | some j => if isDriftSeriesEvent j then out ++ [j] else out
          | none => out) acc
      = acc ++ lines.filterMap
          (fun l => l.bind (fun j => if isDriftSeriesEvent j then some j else none)) := by
  induction lines with
  | nil => intro acc; simp
  | cons l t ih =>
    intro acc
    cases l with
    | none => simp [List.foldl, ih]
    | some j =>
      by_cases h : isDriftSeriesEvent j <;>
        simp [List.foldl, h, ih, List.filterMap_cons]

theorem foldl_push_drift (lines : List (Option Json)) :
    ∀ acc : List Json,
      lines.foldl
        (fun out l =>
          match l with
          | some j => if isDriftEvent j then out ++ [j] else out
          | none => out) acc
      = acc ++ lines.filterMap
          (fun l => l.bind (fun j => if isDriftEvent j then some j else none)) := by
  induction lines with
  | nil => intro acc; simp
  | cons l t ih =>
    intro acc
    cases l with
    | none => simp [List.foldl, ih]
    | some j =>
      by_cases h : isDriftEvent j <;>
        simp [List.foldl, h, ih, List.filterMap_cons]

theorem foldl_push_audit (lines : List (Option Json)) :
    ∀ acc : List Json,
      lines.foldl
        (fun out l => match l with | some j => out ++ [j] | none => out) acc
      = acc ++ lines.filterMap id := by
  induction lines with
  | nil => intro acc; simp
  | cons l t ih =>
    intro acc
    cases l with
    | none => simp [List.foldl, ih]
    | some j => simp [List.foldl, ih, List.filterMap_cons]

/-- C6: the log readers never throw past their boundary: they are total
functions for which a missing file yields `[]`; each line is handled
independently, a malformed (unparsable) line is skipped rather than
fatal (the output is exactly the per-line `filterMap`); and the two
drift-event readers keep only lines with `kind=="drift_event"` and
`v==2` (the series reader additionally requires a string `ts`). -/
theorem claim_C6_log_readers_never_throw (lines : List (Option Json)) :
    parseJsonlSafeDriftSeries none = [] ∧
    parseJsonlSafeDrift none = [] ∧
    parseJsonlSafeAudit none = [] ∧
    parseJsonlSafeDriftSeries (some lines)
      = lines.filterMap
          (fun l => l.bind (fun j => if isDriftSeriesEvent j then some j else none)) ∧
    parseJsonlSafeDrift (some lines)
      = lines.filterMap
          (fun l => l.bind (fun j => if isDriftEvent j then some j else none)) ∧
    parseJsonlSafeAudit (some lines) = lines.filterMap id ∧
    (∀ j ∈ parseJsonlSafeDriftSeries (some lines), isDriftSeriesEvent j = true) ∧
    (∀ j ∈ parseJsonlSafeDrift (some lines), isDriftEvent j = true) := by
  refine ⟨rfl, rfl, rfl, ?_, ?_, ?_, ?_, ?_⟩
  · simpa using foldl_push_driftSeries lines []
  · simpa using foldl_push_drift lines []
  · simpa using foldl_push_audit lines []
  · intro j hj
    rw [show parseJsonlSafeDriftSeries (some lines)
        = lines.foldl
            (fun out l =>
              match l with
              | some j => if isDriftSeriesEvent j then out ++ [j] else out
              | none => out) [] from rfl, foldl_push_driftSeries lines []] at hj
    simp only [List.nil_append, List.mem_filterMap] at hj
    obtain ⟨l, _, hl⟩ := hj
    cases l with
    | none => simp at hl
    | some j' =>
      by_cases h : isDriftSeriesEvent j'
      · simp [h] at hl; subst hl; exact h
      · simp [h] at hl
  · intro j hj
    rw [show parseJsonlSafeDrift (some lines)
        = lines.foldl
            (fun out l =>
              match l with
              | some j => if isDriftEvent j then out ++ [j] else out
              | none => out) [] from rfl, foldl_push_drift lines []] at hj
    simp only [List.nil_append, List.mem_filterMap] at hj
    obtain ⟨l, _, hl⟩ := hj
    cases l with
    | none => simp at hl
    | some j' =>
      by_cases h : isDriftEvent j'
      · simp [h] at hl; subst hl; exact h
      · simp [h] at hl

/-! ## Empty-log drift analysis (C7) -/

theorem analyzeDrift_no_events (dateParse : String → Option Int)
    (numToStr : ℚ → String) (refToStr : ℕ → String) (file : JsonlFile)
    (w : String) (nowMs : Int) (h : parseJsonlSafeDrift file = []) :
    (analyzeDrift dateParse numToStr refToStr file w nowMs).trend = "stable" ∧
    (analyzeDrift dateParse numToStr refToStr file w nowMs).density = 0 ∧
    (analyzeDrift dateParse numToStr refToStr file w nowMs).unique_modules = 0 ∧
    (analyzeDrift dateParse numToStr refToStr file w nowMs).dominance.dominance_ratio
      = 0 ∧
    (analyzeDrift dateParse numToStr refToStr file w nowMs).dominance.top_modules
      = [] := by
  have hc : driftCurrent dateParse file w nowMs = [] := by
    rw [driftCurrent, h]
    rfl
  have hp : driftPrevious dateParse file w nowMs = [] := by
    rw [driftPrevious, h]
    rfl
  simp only [analyzeDrift, hc, hp]
  norm_num [computeDriftDominance, roundTo]

/-- C7: for an empty or missing event log and any window, the drift trend
analysis returns `trend="stable"`, `density=0`, `unique_modules=0`, and a
dominance summary with `dominance_ratio=0` and `top_modules=[]` (for
every clock value and every `String(...)` number/object stringifier). -/
theorem claim_C7_empty_log (dateParse : String → Option Int)
    (numToStr : ℚ → String) (refToStr : ℕ → String) (w : String) (nowMs : Int) :
    ((analyzeDrift dateParse numToStr refToStr none w nowMs).trend = "stable" ∧
     (analyzeDrift dateParse numToStr refToStr none w nowMs).density = 0 ∧
     (analyzeDrift dateParse numToStr refToStr none w nowMs).unique_modules = 0 ∧
     (analyzeDrift dateParse numToStr refToStr none w nowMs).dominance.dominance_ratio
       = 0 ∧
     (analyzeDrift dateParse numToStr refToStr none w nowMs).dominance.top_modules
       = []) ∧
    ((analyzeDrift dateParse numToStr refToStr (some []) w nowMs).trend = "stable" ∧
     (analyzeDrift dateParse numToStr refToStr (some []) w nowMs).density = 0 ∧
     (analyzeDrift dateParse numToStr refToStr (some []) w nowMs).unique_modules = 0 ∧
     (analyzeDrift dateParse numToStr refToStr (some [])
       w nowMs).dominance.dominance_ratio = 0 ∧
     (analyzeDrift dateParse numToStr refToStr (some [])
       w nowMs).dominance.top_modules = []) :=
  ⟨analyzeDrift_no_events dateParse numToStr refToStr none w nowMs rfl,
   analyzeDrift_no_events dateParse numToStr refToStr (some []) w nowMs rfl⟩

/-! ## Bootstrap robustness gating (C5) -/

/-- Helper: the robustness block of a bundle reports the clamped
subsample count `ssOf subsArg`. -/
theorem bundle_robust_subsamples (dateParse : String → Option Int)
    (numParse : String → Option ℚ) (rand : ℕ → ℚ) (driftFile auditFile : JsonlFile)
    (window bucket metric_x metric_y : String) (lagsArg : Option (Option ℚ))
    (subsArg : Option ℚ) (nowMs : Int) :
    (buildAssociationBundle dateParse numParse rand driftFile auditFile window
        bucket metric_x metric_y lagsArg subsArg nowMs).robustness.subsamples
      = ssOf subsArg := by
  simp only [buildAssociationBundle, blockBootstrapR]
  by_cases h3 : bootN ((buildXYSeries (buildDriftDailySeries dateParse driftFile window nowMs)
      (buildRiskDailySeries dateParse numParse auditFile window nowMs) metric_x
      metric_y).map XY.x) ((buildXYSeries (buildDriftDailySeries dateParse driftFile window nowMs)
      (buildRiskDailySeries dateParse numParse auditFile window nowMs) metric_x
      metric_y).map XY.y) < 3
  · simp [h3]
  · simp [h3]
    split <;> rfl

/-- Helper: `ssOf` lands in `[20, 500]`. -/
theorem ssOf_mem (subsArg : Option ℚ) : 20 ≤ ssOf subsArg ∧ ssOf subsArg ≤ 500 := by
  constructor
  · rw [ssOf.eq_def, jsClamp]; exact le_max_left _ _
  · rw [ssOf.eq_def, jsClamp]
    rcases le_or_lt (match subsArg with
      | none => (100 : ℚ) | some q => if q = 0 then 100 else q) 500 with h | h
    · rw [min_eq_right h]
      exact max_le (by norm_num) h
    · rw [min_eq_left h.le]
      norm_num

/-- C5: the bundle's bootstrap subsample count is clamped to `[20, 500]`;
`is_informative` is true exactly when `samples_used ≥ 20` and the
(reported, 4-decimal-rounded) `degenerate_rate` is `≤ 0.5`; and a
non-informative result reports `median_r = 0`, `iqr_r = 0`,
`stability = "low"`.  Stated both for `blockBootstrapR` itself (for every
random stream, series pair, subsample argument and block size) and for
the bundle's robustness block. -/
theorem claim_C5_bootstrap_gating (rand : ℕ → ℚ) (xs ys : List ℚ) (ss : ℚ)
    (blockSize : ℕ) (dateParse : String → Option Int) (numParse : String → Option ℚ)
    (driftFile auditFile : JsonlFile) (window bucket metric_x metric_y : String)
    (lagsArg : Option (Option ℚ)) (subsArg : Option ℚ) (nowMs : Int) :
    ((buildAssociationBundle dateParse numParse rand driftFile auditFile window
        bucket metric_x metric_y lagsArg subsArg nowMs).robustness.subsamples
      = ssOf subsArg ∧
     20 ≤ ssOf subsArg ∧ ssOf subsArg ≤ 500) ∧
    ((blockBootstrapR rand xs ys ss blockSize).is_informative = true ↔
      20 ≤ (blockBootstrapR rand xs ys ss blockSize).samples_used ∧
      (blockBootstrapR rand xs ys ss blockSize).degenerate_rate ≤ 1/2) ∧
    ((blockBootstrapR rand xs ys ss blockSize).is_informative = false →
      (blockBootstrapR rand xs ys ss blockSize).median_r = 0 ∧
      (blockBootstrapR rand xs ys ss blockSize).iqr_r = 0 ∧
      (blockBootstrapR rand xs ys ss blockSize).stability = "low") := by
  refine ⟨⟨bundle_robust_subsamples dateParse numParse rand driftFile auditFile
      window bucket metric_x metric_y lagsArg subsArg nowMs, ssOf_mem subsArg⟩, ?_, ?_⟩
  · rw [blockBootstrapR]
    by_cases h3 : bootN xs ys < 3
    · simp only [h3, if_true]
      norm_num
    · simp only [h3, if_false]
      by_cases hinf : (decide (20 ≤ bootSamplesUsed rand xs ys ss blockSize) &&
          decide (bootDegRate rand xs ys ss blockSize ≤ 1/2)) = false
      · simp only [hinf, if_true]
        simp only [Bool.and_eq_false_iff, decide_eq_false_iff_not, not_le] at hinf
        constructor
        · intro hf; cases hf
        · intro ⟨ha, hb⟩
          rcases hinf with h | h
          · exact absurd ha (not_le.mpr h)
          · exact absurd hb (not_le.mpr h)
      · simp only [hinf, if_false]
        constructor
        · intro _
          have h := (Bool.not_eq_false _).mp hinf
          simp only [Bool.and_eq_true, decide_eq_true_eq] at h
          exact h
        · intro _; rfl
  · rw [blockBootstrapR]
    by_cases h3 : bootN xs ys < 3
    · simp only [h3, if_true]
      intro _; simp
    · simp only [h3, if_false]
      by_cases hinf : (decide (20 ≤ bootSamplesUsed rand xs ys ss blockSize) &&
          decide (bootDegRate rand xs ys ss blockSize ≤ 1/2)) = false
      · simp only [hinf, if_true]
        intro _; simp
      · simp only [hinf, if_false]
        intro hcontra; cases hcontra

/-! ## Dominance share bookkeeping (C3) -/

theorem listSumDiv (l : List ℚ) (c : ℚ) :
    (l.map (fun x => x / c)).sum = l.sum / c := by
  induction l with
  | nil => simp
  | cons a t ih => simp [ih, add_div]

theorem enum_map_snd_sum {α : Type} (l : List α) (g : α → ℚ) :
    (l.enum.map (fun p => g p.2)).sum = (l.map g).sum := by
  have h1 : l.enum.map (fun p => g p.2) = (l.enum.map Prod.snd).map g := by
    rw [List.map_map]; rfl
  rw [h1, List.enum_map_snd]

/-- C3 counterexample: with six modules of total contribution 21 and the
default `topN = 5`, `total_contribution = 21 > 0` yet the shares of the
produced `ModuleContribution`s sum to `20/21 ≠ 1` (only the top-5
entries are materialised). -/
theorem claim_C3_counterexample :
    0 < (computeDriftDominance domSixModules "drift_units" 5).total_contribution ∧
    ((computeDriftDominance domSixModules "drift_units" 5).top_modules.map
      Contribution.share).sum ≠ 1 := by
  have hs : List.insertionSort (modBefore "drift_units") domSixModules = domSixModules := by
    norm_num [domSixModules, List.insertionSort, List.orderedInsert, modBefore, mval]
  constructor
  · simp only [computeDriftDominance, hs]
    norm_num [domSixModules, mval]
  · simp only [computeDriftDominance, hs]
    norm_num [domSixModules, mval, List.enum, List.enumFrom]

/-- C3 (amended): the shares over all produced `ModuleContribution`s sum
to 1 whenever `total_contribution > 0` **and the module list has at most
`top_n` entries** (the computation only materialises the top `top_n`
modules); every share is 0 when `total_contribution = 0`; and an empty
module set produces no contributions at all. -/
theorem claim_C3_amended_share_sum (modules : List MRec) (metric : String) (topN : ℕ) :
    (modules.length ≤ topN →
      0 < (computeDriftDominance modules metric topN).total_contribution →
      ((computeDriftDominance modules metric topN).top_modules.map
        Contribution.share).sum = 1) ∧
    ((computeDriftDominance modules metric topN).total_contribution = 0 →
      ∀ c ∈ (computeDriftDominance modules metric topN).top_modules, c.share = 0) ∧
    (modules = [] → (computeDriftDominance modules metric topN).top_modules = []) := by
  by_cases hm : modules.length = 0
  · simp [computeDriftDominance, hm]
  · have hne : modules ≠ [] := by
      intro h; exact hm (by simp [h])
    simp only [computeDriftDominance, hm, if_false]
    refine ⟨?_, ?_, fun h => absurd h hne⟩
    · intro hlen hpos
      set sorted := modules.insertionSort (modBefore metric) with hsorted
      set total := (sorted.map (mval metric)).sum with htotal
      have hslen : sorted.length = modules.length := List.length_insertionSort _ _
      have htake : sorted.take topN = sorted :=
        List.take_of_length_le (by rw [hslen]; exact hlen)
      have hmap : ((sorted.take topN).enum.map
          (fun p => ({ module := p.2.module, contribution := mval metric p.2
                       share := if 0 < total then mval metric p.2 / total else 0
                       rank := p.1 + 1 } : Contribution))).map Contribution.share
          = (sorted.take topN).enum.map
              (fun p => if 0 < total then mval metric p.2 / total else 0) := by
        rw [List.map_map]; rfl
      rw [hmap]
      rw [enum_map_snd_sum (sorted.take topN)
        (fun m => if 0 < total then mval metric m / total else 0)]
      rw [htake]
      have hshape : (sorted.map (fun m => if 0 < total then mval metric m / total else 0))
          = sorted.map (fun m => mval metric m / total) := by
        apply List.map_congr_left
        intro m _
        rw [if_pos hpos]
      rw [hshape]
      have : sorted.map (fun m => mval metric m / total)
          = (sorted.map (mval metric)).map (fun x => x / total) := by
        rw [List.map_map]; rfl
      rw [this, listSumDiv, ← htotal, div_self (ne_of_gt hpos)]
    · intro htz c hc
      simp only [List.mem_map] at hc
      obtain ⟨p, _, rfl⟩ := hc
      simp only [htz]
      norm_num

/-! ## Lag sweep shape (C4) -/

theorem getD_range_map {β : Type} (f : ℕ → β) (n i : ℕ) (d : β) (h : i < n) :
    (((List.range n).map f).getD i d) = f i := by
  rw [List.getD_eq_getElem _ _ (by simpa using h)]
  simp

/-- For a natural `m`, the sweep grid is the integer grid
`[-m, …, m]`. -/
theorem lagGrid_nat (m : ℕ) :
    lagGrid (m : ℚ) = (List.range (2 * m + 1)).map (fun (k : ℕ) => (k : ℚ) - (m : ℚ)) := by
  rw [lagGrid]
  rw [if_neg (not_lt.mpr (by positivity))]
  have hfloor : ⌊2 * (m : ℚ)⌋ = (2 * m : ℕ) := by
    rw [show (2 * (m : ℚ)) = ((2 * m : ℕ) : ℚ) by push_cast; ring]
    exact Int.floor_natCast _
  rw [hfloor]
  simp only [Int.toNat_natCast]
  exact List.map_congr_left (fun k _ => by ring)

/-- The lag list of a bundle, unfolded. -/
theorem bundle_lags_eq (dateParse : String → Option Int)
    (numParse : String → Option ℚ) (rand : ℕ → ℚ) (driftFile auditFile : JsonlFile)
    (window bucket metric_x metric_y : String) (lagsArg : Option (Option ℚ))
    (subsArg : Option ℚ) (nowMs : Int) :
    (buildAssociationBundle dateParse numParse rand driftFile auditFile window
        bucket metric_x metric_y lagsArg subsArg nowMs).lags
      = (lagGrid (maxLagOf window lagsArg)).map
          (mkLagEntry
            ((buildXYSeries (buildDriftDailySeries dateParse driftFile window nowMs)
              (buildRiskDailySeries dateParse numParse auditFile window nowMs)
              metric_x metric_y).map XY.x)
            ((buildXYSeries (buildDriftDailySeries dateParse driftFile window nowMs)
              (buildRiskDailySeries dateParse numParse auditFile window nowMs)
              metric_x metric_y).map XY.y)
            (buildXYSeries (buildDriftDailySeries dateParse driftFile window nowMs)
              (buildRiskDailySeries dateParse numParse auditFile window nowMs)
              metric_x metric_y).length) := rfl

/-- C4 counterexample: with the user lags argument `2.5` (accepted by
`clamp(Number(lags)||0, 0, 14)`), the sweep runs over the shifted
half-integer grid and contains no `lag_days = 0` entry, contradicting
the claim for this lags argument. -/
theorem claim_C4_counterexample :
    ((buildAssociationBundle (fun _ => none) (fun _ => none) (fun _ => 0) none none
        "7d" "day" "drift_density" "risk_score_avg" (some (some (5/2))) none 0).lags.map
      LagEntry.lag_days) = [-5/2, -3/2, -1/2, 1/2, 3/2, 5/2] ∧
    (0 : ℚ) ∉ [(-5/2 : ℚ), -3/2, -1/2, 1/2, 3/2, 5/2] := by
  constructor
  · rw [bundle_lags_eq, List.map_map]
    have hmk : (LagEntry.lag_days ∘ mkLagEntry
        ((buildXYSeries (buildDriftDailySeries (fun _ => none) none "7d" 0)
          (buildRiskDailySeries (fun _ => none) (fun _ => none) none "7d" 0)
          "drift_density" "risk_score_avg").map XY.x)
        ((buildXYSeries (buildDriftDailySeries (fun _ => none) none "7d" 0)
          (buildRiskDailySeries (fun _ => none) (fun _ => none) none "7d" 0)
          "drift_density" "risk_score_avg").map XY.y)
        (buildXYSeries (buildDriftDailySeries (fun _ => none) none "7d" 0)
          (buildRiskDailySeries (fun _ => none) (fun _ => none) none "7d" 0)
          "drift_density" "risk_score_avg").length) = fun lag => lag := rfl
    rw [hmk]
    have hmax : maxLagOf "7d" (some (some (5/2))) = 5/2 := by
      rw [maxLagOf]
      rw [jsClamp]
      norm_num
    rw [hmax, lagGrid]
    rw [if_neg (by norm_num)]
    have hfloor : ⌊2 * (5/2 : ℚ)⌋ = 5 := by norm_num
    rw [hfloor]
    rw [show Int.toNat 5 + 1 = 6 from rfl]
    rw [show List.range 6 = [0, 1, 2, 3, 4, 5] from rfl]
    norm_num
  · norm_num

/-- C4 (amended): for every window and every **integer** (or absent, or
non-numeric) lags argument, the bundle's lag sweep has exactly
`2*maxLag+1` entries with `lag_days` strictly ascending from `-maxLag`
to `+maxLag` and containing `lag_days = 0`, where
`maxLag = clamp(days, 3, 14)` when no lags argument is given and
otherwise the user value clamped to `[0, 14]`.  (A fractional lags value
instead yields `⌊2*maxLag⌋+1` entries on a shifted grid that can miss
lag 0, see the counterexample.) -/
theorem claim_C4_amended_lag_sweep (dateParse : String → Option Int)
    (numParse : String → Option ℚ) (rand : ℕ → ℚ) (driftFile auditFile : JsonlFile)
    (window bucket metric_x metric_y : String) (lagsArg : Option (Option ℚ))
    (subsArg : Option ℚ) (nowMs : Int)
    (hInt : ∀ q : ℚ, lagsArg = some (some q) → q.den = 1) :
    ∃ m : ℕ, (m : ℚ) = maxLagOf window lagsArg ∧
      (lagsArg = none → (m : ℚ) = jsClamp ((windowToDays window : ℕ) : ℚ) 3 14) ∧
      (∀ v, lagsArg = some v →
        (m : ℚ) = jsClamp (match v with | some q => q | none => 0) 0 14) ∧
      (buildAssociationBundle dateParse numParse rand driftFile auditFile window
          bucket metric_x metric_y lagsArg subsArg nowMs).lags.length = 2 * m + 1 ∧
      (∀ i, i < 2 * m + 1 →
        ((buildAssociationBundle dateParse numParse rand driftFile auditFile window
            bucket metric_x metric_y lagsArg subsArg nowMs).lags.getD i
          lagEntryDefault).lag_days = (i : ℚ) - m) ∧
      ((buildAssociationBundle dateParse numParse rand driftFile auditFile window
          bucket metric_x metric_y lagsArg subsArg nowMs).lags.getD m
        lagEntryDefault).lag_days = 0 ∧
      (∀ i j, i < j → j < 2 * m + 1 →
        ((buildAssociationBundle dateParse numParse rand driftFile auditFile window
            bucket metric_x metric_y lagsArg subsArg nowMs).lags.getD i
          lagEntryDefault).lag_days <
        ((buildAssociationBundle dateParse numParse rand driftFile auditFile window
            bucket metric_x metric_y lagsArg subsArg nowMs).lags.getD j
          lagEntryDefault).lag_days) := by
  -- `maxLag` is a natural number under the integrality hypothesis.
  obtain ⟨m, hm⟩ : ∃ m : ℕ, (m : ℚ) = maxLagOf window lagsArg := by
    match hl : lagsArg with
    | none =>
      refine ⟨min (windowToDays window) 14, ?_⟩
      have hd : windowToDays window = 7 ∨ windowToDays window = 14 ∨
          windowToDays window = 30 := by
        rw [windowToDays]
        split_ifs <;> simp
      rcases hd with h | h | h <;>
        · rw [maxLagOf, h, jsClamp]
          norm_num
    | some none =>
      refine ⟨0, ?_⟩
      rw [maxLagOf, jsClamp]
      norm_num
    | some (some q) =>
      have hden : q.den = 1 := hInt q rfl
      have hq : (q.num : ℚ) = q := Rat.coe_int_num_of_den_eq_one hden
      refine ⟨(max 0 (min 14 q.num)).toNat, ?_⟩
      rw [maxLagOf, jsClamp]
      have h0 : (0 : ℤ) ≤ max 0 (min 14 q.num) := le_max_left _ _
      calc ((max 0 (min 14 q.num)).toNat : ℚ)
          = (((max 0 (min 14 q.num)).toNat : ℤ) : ℚ) := by norm_cast
        _ = ((max 0 (min 14 q.num) : ℤ) : ℚ) := by rw [Int.toNat_of_nonneg h0]
        _ = max 0 (min 14 q) := by push_cast [hq]; ring_nf
  refine ⟨m, hm, ?_, ?_, ?_, ?_, ?_, ?_⟩
  · intro h
    rw [hm, h]
    simp [maxLagOf]
  · intro v hv
    rw [hm, hv]
    simp [maxLagOf]
  · rw [bundle_lags_eq, ← hm, lagGrid_nat m]
    rw [List.length_map, List.length_map, List.length_range]
  · intro i hi
    rw [bundle_lags_eq, ← hm, lagGrid_nat m, List.map_map]
    rw [getD_range_map _ _ _ _ hi]
    rfl
  · rw [bundle_lags_eq, ← hm, lagGrid_nat m, List.map_map]
    rw [getD_range_map _ _ _ _ (by omega)]
    show ((m : ℚ) - m = 0)
    ring
  · intro i j hij hj
    rw [bundle_lags_eq, ← hm, lagGrid_nat m, List.map_map]
    rw [getD_range_map _ _ _ _ (lt_trans hij hj), getD_range_map _ _ _ _ hj]
    show ((i : ℚ) - m < (j : ℚ) - m)
    have : (i : ℚ) < (j : ℚ) := by exact_mod_cast hij
    linarith

theorem claim_C6_witness :
    parseJsonlSafeDriftSeries none = [] ∧ isDriftEvent sampleDriftEvent = true := by
  have h := claim_C6_log_readers_never_throw [some sampleDriftEvent]
  refine ⟨h.1, h.2.2.2.2.2.2.2 sampleDriftEvent ?_⟩
  rw [show parseJsonlSafeDrift (some [some sampleDriftEvent]) = [sampleDriftEvent]
    from rfl]
  exact List.mem_singleton_self _

theorem claim_C5_witness :
    (blockBootstrapR (fun _ => 0) [] [] 0 2).median_r = 0 ∧
    (blockBootstrapR (fun _ => 0) [] [] 0 2).iqr_r = 0 ∧
    (blockBootstrapR (fun _ => 0) [] [] 0 2).stability = "low" := by
  have h := claim_C5_bootstrap_gating (fun _ => 0) [] [] 0 2 (fun _ => none)
    (fun _ => none) none none "7d" "day" "drift_density" "risk_score_avg" none none 0
  exact h.2.2 rfl

theorem claim_C3_witness :
    (List.map Contribution.share
      (computeDriftDominance
        [{ module := "a", drift_units := 1, boundary := none },
         { module := "b", drift_units := 3, boundary := none }]
        "drift_units" 5).top_modules).sum = 1 := by
  have h := claim_C3_amended_share_sum
    [{ module := "a", drift_units := 1, boundary := none },
     { module := "b", drift_units := 3, boundary := none }] "drift_units" 5
  refine h.1 (by norm_num) ?_
  have hs : List.insertionSort (modBefore "drift_units")
      [({ module := "a", drift_units := 1, boundary := none } : MRec),
       { module := "b", drift_units := 3, boundary := none }]
      = [{ module := "b", drift_units := 3, boundary := none },
         { module := "a", drift_units := 1, boundary := none }] := by
    norm_num [List.insertionSort, List.orderedInsert, modBefore, mval]
  simp only [computeDriftDominance, hs]
  norm_num [mval]

theorem claim_C4_witness :
    (buildAssociationBundle (fun _ => none) (fun _ => none) (fun _ => 0) none none
      "7d" "day" "drift_density" "risk_score_avg" none none 0).lags.length = 15 := by
  obtain ⟨m, hm, hnone, _, hlen, -⟩ :=
    claim_C4_amended_lag_sweep (fun _ => none) (fun _ => none) (fun _ => 0) none none
      "7d" "day" "drift_density" "risk_score_avg" none none 0
      (fun q h => Option.noConfusion h)
  have h7 : (m : ℚ) = 7 := by
    rw [hnone rfl]
    norm_num [jsClamp, windowToDays]
    decide
  have hm7 : m = 7 := by exact_mod_cast h7
  rw [hlen, hm7]

/-! ## Pearson characterization (C1) -/

theorem pearsonCore_n_eff (xs ys : List (Option ℚ)) :
    (pearsonCore xs ys).n_effective = (finitePairs xs ys).length := by
  by_cases h : (finitePairs xs ys).length < 3 <;> simp [pearsonCore, h]

theorem pearsonCore_dx_nonneg (xs ys : List (Option ℚ)) :
    0 ≤ (pearsonCore xs ys).dx := by
  by_cases h : (finitePairs xs ys).length < 3
  · simp [pearsonCore, h]
  · simp only [pearsonCore, h, if_false]
    exact List.sum_nonneg (by
      intro x hx
      simp only [List.mem_map] at hx
      obtain ⟨p, _, rfl⟩ := hx
      positivity)

theorem pearsonCore_dy_nonneg (xs ys : List (Option ℚ)) :
    0 ≤ (pearsonCore xs ys).dy := by
  by_cases h : (finitePairs xs ys).length < 3
  · simp [pearsonCore, h]
  · simp only [pearsonCore, h, if_false]
    exact List.sum_nonneg (by
      intro x hx
      simp only [List.mem_map] at hx
      obtain ⟨p, _, rfl⟩ := hx
      positivity)

/-- The float test `!den` with `den = √dx·√dy` is equivalent to
`dx = 0 ∨ dy = 0` for nonnegative `dx`, `dy`. -/
theorem sqrt_mul_sqrt_eq_zero_iff {dx dy : ℚ} (hx : 0 ≤ dx) (hy : 0 ≤ dy) :
    Real.sqrt dx * Real.sqrt dy = 0 ↔ dx = 0 ∨ dy = 0 := by
  rw [mul_eq_zero]
  rw [Real.sqrt_eq_zero (by exact_mod_cast hx), Real.sqrt_eq_zero (by exact_mod_cast hy)]
  constructor
  · rintro (h | h)
    · left; exact_mod_cast h
    · right; exact_mod_cast h
  · rintro (h | h)
    · left; exact_mod_cast h
    · right; exact_mod_cast h

theorem pearsonCore_deg_iff (xs ys : List (Option ℚ)) :
    (pearsonCore xs ys).degenerate = true ↔
      ((pearsonCore xs ys).n_effective < 3 ∨
        (pearsonCore xs ys).dx = 0 ∨ (pearsonCore xs ys).dy = 0) := by
  by_cases h : (finitePairs xs ys).length < 3 <;>
    simp [pearsonCore, h]

theorem pearsonR_eq_zero_of_deg (xs ys : List (Option ℚ))
    (h : (pearsonCore xs ys).degenerate = true) : pearsonR xs ys = 0 := by
  rw [pearsonR]
  simp [h]

theorem pearsonR_formula (xs ys : List (Option ℚ))
    (h : (pearsonCore xs ys).degenerate = false) :
    pearsonR xs ys = roundToR 4 (max (-1) (min 1 (((pearsonCore xs ys).num : ℝ) /
      (Real.sqrt (pearsonCore xs ys).dx * Real.sqrt (pearsonCore xs ys).dy)))) := by
  rw [pearsonR]
  simp [h]

theorem computeLagStats_deg_iff (xs ys : List ℚ) (lag : ℚ) :
    (computeLagStats xs ys lag).degenerate = true ↔
      ((pearsonCore (lagXs xs ys lag) (lagYs xs ys lag)).n_effective < 3 ∨
        (pearsonCore (lagXs xs ys lag) (lagYs xs ys lag)).dx = 0 ∨
        (pearsonCore (lagXs xs ys lag) (lagYs xs ys lag)).dy = 0) := by
  rw [computeLagStats]
  simp only [Bool.or_eq_true, decide_eq_true_eq]
  rw [pearsonCore_deg_iff]
  tauto

theorem computeLagStats_r_of_deg (xs ys : List ℚ) (lag : ℚ)
    (h : (computeLagStats xs ys lag).degenerate = true) :
    (computeLagStats xs ys lag).r = 0 := by
  revert h
  rw [computeLagStats]
  intro h
  simp only at h ⊢
  simp [h]

theorem computeLagStats_r_formula (xs ys : List ℚ) (lag : ℚ)
    (h : (computeLagStats xs ys lag).degenerate = false) :
    (computeLagStats xs ys lag).r =
      roundToR 4 (max (-1) (min 1
        (((pearsonCore (lagXs xs ys lag) (lagYs xs ys lag)).num : ℝ) /
          (Real.sqrt (pearsonCore (lagXs xs ys lag) (lagYs xs ys lag)).dx *
            Real.sqrt (pearsonCore (lagXs xs ys lag) (lagYs xs ys lag)).dy)))) := by
  revert h
  rw [computeLagStats]
  intro h
  simp only at h ⊢
  simp only [h, Bool.false_eq_true, if_false]
  apply pearsonR_formula
  have := h
  simp only [Bool.or_eq_false_iff] at this
  exact this.1

theorem mkLagEntry_r (xs ys : List ℚ) (n : ℕ) (lag : ℚ) :
    (mkLagEntry xs ys n lag).r = (computeLagStats xs ys lag).r := rfl

theorem mkLagEntry_deg (xs ys : List ℚ) (n : ℕ) (lag : ℚ) :
    (mkLagEntry xs ys n lag).degenerate = (computeLagStats xs ys lag).degenerate := rfl

theorem bundle_pearson_r_eq (dateParse : String → Option Int)
    (numParse : String → Option ℚ) (rand : ℕ → ℚ) (driftFile auditFile : JsonlFile)
    (window bucket metric_x metric_y : String) (lagsArg : Option (Option ℚ))
    (subsArg : Option ℚ) (nowMs : Int) :
    (buildAssociationBundle dateParse numParse rand driftFile auditFile window
        bucket metric_x metric_y lagsArg subsArg nowMs).pearson.r
      = (if (pearsonCore
            ((bundleXs dateParse numParse driftFile auditFile window metric_x metric_y nowMs).map some)
            ((bundleYs dateParse numParse driftFile auditFile window metric_x metric_y nowMs).map some)).degenerate
         then 0
         else pearsonR
            ((bundleXs dateParse numParse driftFile auditFile window metric_x metric_y nowMs).map some)
            ((bundleYs dateParse numParse driftFile auditFile window metric_x metric_y nowMs).map some)) := rfl

theorem bundle_pearson_deg_eq (dateParse : String → Option Int)
    (numParse : String → Option ℚ) (rand : ℕ → ℚ) (driftFile auditFile : JsonlFile)
    (window bucket metric_x metric_y : String) (lagsArg : Option (Option ℚ))
    (subsArg : Option ℚ) (nowMs : Int) :
    (buildAssociationBundle dateParse numParse rand driftFile auditFile window
        bucket metric_x metric_y lagsArg subsArg nowMs).pearson.degenerate
      = (pearsonCore
          ((bundleXs dateParse numParse driftFile auditFile window metric_x metric_y nowMs).map some)
          ((bundleYs dateParse numParse driftFile auditFile window metric_x metric_y nowMs).map some)).degenerate := rfl

/-- C1: the Pearson result always has `r ∈ [-1, 1]`; `degenerate = true`
forces `r = 0`; the result is degenerate exactly when the number of
finite pairs is `< 3` or either series has zero sample variance over
those pairs; otherwise `r` is the deviation-product sum divided by the
product of the square roots of the summed squared deviations, clamped to
`[-1,1]` and rounded to 4 decimals.  Stated for the main Pearson run
(`pearsonStats`), for every lag-sweep statistic (`computeLagStats`), and
for the association bundle's published Pearson block and lag entries. -/
theorem claim_C1_pearson_contract (xs ys : List (Option ℚ)) (xs' ys' : List ℚ)
    (lag : ℚ) (dateParse : String → Option Int) (numParse : String → Option ℚ)
    (rand : ℕ → ℚ) (driftFile auditFile : JsonlFile)
    (window bucket metric_x metric_y : String) (lagsArg : Option (Option ℚ))
    (subsArg : Option ℚ) (nowMs : Int) :
    ((-1 ≤ pearsonR xs ys ∧ pearsonR xs ys ≤ 1) ∧
     ((pearsonCore xs ys).degenerate = true → pearsonR xs ys = 0) ∧
     ((pearsonCore xs ys).degenerate = true ↔
       ((pearsonCore xs ys).n_effective < 3 ∨
         (pearsonCore xs ys).dx / (((pearsonCore xs ys).n_effective : ℚ) - 1) = 0 ∨
         (pearsonCore xs ys).dy / (((pearsonCore xs ys).n_effective : ℚ) - 1) = 0)) ∧
     ((pearsonCore xs ys).degenerate = false →
       pearsonR xs ys = roundToR 4 (max (-1) (min 1 (((pearsonCore xs ys).num : ℝ) /
         (Real.sqrt (pearsonCore xs ys).dx * Real.sqrt (pearsonCore xs ys).dy)))))) ∧
    ((-1 ≤ (computeLagStats xs' ys' lag).r ∧ (computeLagStats xs' ys' lag).r ≤ 1) ∧
     ((computeLagStats xs' ys' lag).degenerate = true →
       (computeLagStats xs' ys' lag).r = 0) ∧
     ((computeLagStats xs' ys' lag).degenerate = true ↔
       ((pearsonCore (lagXs xs' ys' lag) (lagYs xs' ys' lag)).n_effective < 3 ∨
         (pearsonCore (lagXs xs' ys' lag) (lagYs xs' ys' lag)).dx = 0 ∨
         (pearsonCore (lagXs xs' ys' lag) (lagYs xs' ys' lag)).dy = 0)) ∧
     ((computeLagStats xs' ys' lag).degenerate = false →
       (computeLagStats xs' ys' lag).r =
         roundToR 4 (max (-1) (min 1
           (((pearsonCore (lagXs xs' ys' lag) (lagYs xs' ys' lag)).num : ℝ) /
             (Real.sqrt (pearsonCore (lagXs xs' ys' lag) (lagYs xs' ys' lag)).dx *
               Real.sqrt (pearsonCore (lagXs xs' ys' lag) (lagYs xs' ys' lag)).dy)))))) ∧
    ((-1 ≤ (buildAssociationBundle dateParse numParse rand driftFile auditFile window
          bucket metric_x metric_y lagsArg subsArg nowMs).pearson.r ∧
      (buildAssociationBundle dateParse numParse rand driftFile auditFile window
          bucket metric_x metric_y lagsArg subsArg nowMs).pearson.r ≤ 1) ∧
     ((buildAssociationBundle dateParse numParse rand driftFile auditFile window
          bucket metric_x metric_y lagsArg subsArg nowMs).pearson.degenerate = true →
       (buildAssociationBundle dateParse numParse rand driftFile auditFile window
          bucket metric_x metric_y lagsArg subsArg nowMs).pearson.r = 0) ∧
     (∀ e ∈ (buildAssociationBundle dateParse numParse rand driftFile auditFile window
          bucket metric_x metric_y lagsArg subsArg nowMs).lags,
        (-1 ≤ e.r ∧ e.r ≤ 1) ∧ (e.degenerate = true → e.r = 0))) := by
  refine ⟨⟨pearsonR_mem_Icc xs ys, pearsonR_eq_zero_of_deg xs ys, ?_,
      pearsonR_formula xs ys⟩,
    ⟨computeLagStats_r_mem_Icc xs' ys' lag, computeLagStats_r_of_deg xs' ys' lag,
      computeLagStats_deg_iff xs' ys' lag, computeLagStats_r_formula xs' ys' lag⟩,
    ⟨?_, ?_, ?_⟩⟩
  · -- variance form of the degeneracy test
    rw [pearsonCore_deg_iff]
    by_cases hn : (pearsonCore xs ys).n_effective < 3
    · simp [hn]
    · have h3 : (3 : ℚ) ≤ ((pearsonCore xs ys).n_effective : ℚ) := by
        exact_mod_cast not_lt.mp hn
      have hb : ((pearsonCore xs ys).n_effective : ℚ) - 1 ≠ 0 := by
        intro h; rw [sub_eq_zero] at h; rw [h] at h3; norm_num at h3
      simp [hn, div_eq_zero_iff, hb]
  · rw [bundle_pearson_r_eq]
    cases hd : (pearsonCore
        ((bundleXs dateParse numParse driftFile auditFile window metric_x metric_y nowMs).map some)
        ((bundleYs dateParse numParse driftFile auditFile window metric_x metric_y nowMs).map some)).degenerate
    · simp only [hd, Bool.false_eq_true, if_false]
      exact pearsonR_mem_Icc _ _
    · simp [hd]
  · intro hdeg
    rw [bundle_pearson_deg_eq] at hdeg
    rw [bundle_pearson_r_eq, if_pos hdeg]
  · intro e he
    rw [bundle_lags_eq] at he
    simp only [List.mem_map] at he
    obtain ⟨lag', _, rfl⟩ := he
    rw [mkLagEntry_r, mkLagEntry_deg]
    exact ⟨computeLagStats_r_mem_Icc _ _ lag',
      fun h => computeLagStats_r_of_deg _ _ lag' h⟩

theorem claim_C1_witness : pearsonR [] [] = 0 := by
  have h := claim_C1_pearson_contract [] [] [] [] 0 (fun _ => none) (fun _ => none)
    (fun _ => 0) none none "7d" "day" "drift_density" "risk_score_avg" none none 0
  exact h.1.2.1 rfl

theorem scenario_core :
    (pearsonCore (scenarioX.map some) (scenarioY.map some)).degenerate = false ∧
    (pearsonCore (scenarioX.map some) (scenarioY.map some)).num = 165 ∧
    (pearsonCore (scenarioX.map some) (scenarioY.map some)).dx = 165/2 ∧
    (pearsonCore (scenarioX.map some) (scenarioY.map some)).dy = 330 := by
  have hpairs : finitePairs (scenarioX.map some) (scenarioY.map some)
      = scenarioX.zip scenarioY := rfl
  refine ⟨?_, ?_, ?_, ?_⟩ <;>
    · simp only [pearsonCore, hpairs]
      norm_num [scenarioX, scenarioY]

theorem scenario_sqrt : Real.sqrt ((165/2 : ℚ) : ℝ) * Real.sqrt ((330 : ℚ) : ℝ) = 165 := by
  rw [show (((165/2 : ℚ)) : ℝ) = (165/2 : ℝ) by norm_num]
  rw [show (((330 : ℚ)) : ℝ) = (330 : ℝ) by norm_num]
  rw [← Real.sqrt_mul (by norm_num : (0:ℝ) ≤ 165/2)]
  rw [show (165/2 * 330 : ℝ) = 165^2 by norm_num]
  exact Real.sqrt_sq (by norm_num)

theorem roundToR_one : roundToR 4 1 = 1 := by
  rw [roundToR, one_mul]
  rw [show ((10:ℝ)^4) = (((10^4 : ℤ)) : ℝ) by norm_num]
  rw [round_intCast]
  norm_num

theorem scenario_pearsonR : pearsonR (scenarioX.map some) (scenarioY.map some) = 1 := by
  rw [pearsonR_formula _ _ scenario_core.1]
  rw [scenario_core.2.1, scenario_core.2.2.1, scenario_core.2.2.2]
  rw [scenario_sqrt]
  rw [show (((165 : ℚ)) : ℝ) / 165 = 1 by norm_num]
  rw [show (min 1 (1:ℝ)) = 1 by norm_num, show (max (-1) (1:ℝ)) = 1 by norm_num]
  exact roundToR_one

theorem scenario_lag0_x : lagXs scenarioX scenarioY 0 = scenarioX.map some := by
  rw [lagXs]
  norm_num [scenarioX, scenarioY]
  rw [show List.range 10 = [0,1,2,3,4,5,6,7,8,9] from rfl]
  rfl

theorem scenario_lag0_y : lagYs scenarioX scenarioY 0 = scenarioY.map some := by
  rw [lagYs]
  norm_num [scenarioX, scenarioY]
  rw [show List.range 10 = [0,1,2,3,4,5,6,7,8,9] from rfl]
  norm_num [jsIndex]
  rfl

/-- C8: for `X = [1..10]` and `Y = 2X+1` the Pearson computation is
non-degenerate with `r = 1.0000` exactly, and among all lag statistics
computable for these series the one at `lag_days = 0` attains the
maximum `|r|`. -/
theorem claim_C8_perfect_linear :
    (pearsonCore (scenarioX.map some) (scenarioY.map some)).degenerate = false ∧
    pearsonR (scenarioX.map some) (scenarioY.map some) = 1 ∧
    (computeLagStats scenarioX scenarioY 0).degenerate = false ∧
    (computeLagStats scenarioX scenarioY 0).r = 1 ∧
    (∀ lag : ℚ, |(computeLagStats scenarioX scenarioY lag).r| ≤
      |(computeLagStats scenarioX scenarioY 0).r|) := by
  have hdeg0 : (computeLagStats scenarioX scenarioY 0).degenerate = false := by
    rw [computeLagStats]
    simp only [scenario_lag0_x, scenario_lag0_y]
    rw [scenario_core.1, pearsonCore_n_eff]
    rw [show (finitePairs (scenarioX.map some) (scenarioY.map some)).length = 10 from rfl]
    simp
  have hr0 : (computeLagStats scenarioX scenarioY 0).r = 1 := by
    rw [computeLagStats]
    simp only [scenario_lag0_x, scenario_lag0_y]
    rw [scenario_core.1, pearsonCore_n_eff]
    rw [show (finitePairs (scenarioX.map some) (scenarioY.map some)).length = 10 from rfl]
    simp only [show decide (10 < 3) = false from rfl, Bool.or_false, Bool.false_eq_true,
      if_false]
    exact scenario_pearsonR
  refine ⟨scenario_core.1, scenario_pearsonR, hdeg0, hr0, ?_⟩
  intro lag
  rw [hr0]
  rw [show |(1:ℝ)| = 1 by norm_num]
  have h := computeLagStats_r_mem_Icc scenarioX scenarioY lag
  exact abs_le.mpr ⟨h.1, h.2⟩

theorem driftStep_eq_map (dateParse : String → Option Int) (startMs endMs : Int)
    (rows : List DriftRow) (j : Json) :
    driftStep dateParse startMs endMs rows j
      = rows.map (driftStepOne dateParse startMs endMs j) := by
  cases h : eventTsMs dateParse j with
  | none =>
    have hone : ∀ r ∈ rows, r = driftStepOne dateParse startMs endMs j r :=
      fun r _ => by simp [driftStepOne, h]
    calc driftStep dateParse startMs endMs rows j = rows := by simp [driftStep, h]
      _ = rows.map (driftStepOne dateParse startMs endMs j) := by
          rw [← List.map_congr_left hone]
          simp
  | some ts =>
    by_cases hr : ts = 0 ∨ ts < startMs ∨ endMs ≤ ts
    · have hone : ∀ r ∈ rows, r = driftStepOne dateParse startMs endMs j r :=
        fun r _ => by simp [driftStepOne, h, hr]
      calc driftStep dateParse startMs endMs rows j = rows := by simp [driftStep, h, hr]
        _ = rows.map (driftStepOne dateParse startMs endMs j) := by
            rw [← List.map_congr_left hone]
            simp
    · simp only [driftStep, h, hr, if_false]
      apply List.map_congr_left
      intro r _
      simp [driftStepOne, h, hr]

theorem foldl_driftStep_map (dateParse : String → Option Int) (startMs endMs : Int)
    (l : List Json) :
    ∀ rows : List DriftRow,
      l.foldl (driftStep dateParse startMs endMs) rows
        = rows.map (fun r =>
            l.foldl (fun r j => driftStepOne dateParse startMs endMs j r) r) := by
  induction l with
  | nil => intro rows; simp
  | cons j t ih =>
    intro rows
    rw [List.foldl_cons, ih, driftStep_eq_map, List.map_map]
    rfl

theorem driftStepOne_t (dateParse : String → Option Int) (startMs endMs : Int)
    (j : Json) (r : DriftRow) :
    (driftStepOne dateParse startMs endMs j r).t = r.t := by
  cases h : eventTsMs dateParse j with
  | none => simp [driftStepOne, h]
  | some ts =>
    by_cases hr : ts = 0 ∨ ts < startMs ∨ endMs ≤ ts
    · simp [driftStepOne, h, hr]
    · by_cases ht : r.t = utcDayStart ts <;>
        simp [driftStepOne, h, hr, ht]

theorem driftStepOne_of_not_contrib (dateParse : String → Option Int)
    (startMs endMs : Int) (j : Json) (r : DriftRow)
    (h : ¬ driftContributes dateParse startMs endMs r.t j) :
    driftStepOne dateParse startMs endMs j r = r := by
  cases hts : eventTsMs dateParse j with
  | none => simp [driftStepOne, hts]
  | some ts =>
    by_cases hr : ts = 0 ∨ ts < startMs ∨ endMs ≤ ts
    · simp [driftStepOne, hts, hr]
    · push_neg at hr
      have ht : r.t ≠ utcDayStart ts := by
        intro he
        exact h ⟨ts, hts, hr.1, hr.2.1, hr.2.2, he.symm⟩
      have hr' : ¬ (ts = 0 ∨ ts < startMs ∨ endMs ≤ ts) := by
        push_neg
        exact hr
      simp [driftStepOne, hts, hr', ht]

theorem foldApply_drift_t (dateParse : String → Option Int) (startMs endMs : Int)
    (l : List Json) :
    ∀ r : DriftRow,
      (l.foldl (fun r j => driftStepOne dateParse startMs endMs j r) r).t = r.t := by
  induction l with
  | nil => intro r; rfl
  | cons j t ih =>
    intro r
    rw [List.foldl_cons, ih, driftStepOne_t]

theorem foldApply_drift_id (dateParse : String → Option Int) (startMs endMs : Int)
    (l : List Json) :
    ∀ r : DriftRow, (∀ j ∈ l, ¬ driftContributes dateParse startMs endMs r.t j) →
      l.foldl (fun r j => driftStepOne dateParse startMs endMs j r) r = r := by
  induction l with
  | nil => intro r _; rfl
  | cons j t ih =>
    intro r h
    rw [List.foldl_cons,
      driftStepOne_of_not_contrib dateParse startMs endMs j r
        (h j (List.mem_cons_self j t))]
    exact ih r (fun j' hj' => h j' (List.mem_cons_of_mem j hj'))

theorem riskStepOne_none (dateParse : String → Option Int)
    (numParse : String → Option ℚ) (startMs endMs : Int) (j : Json) (r : RiskRow)
    (h : riskTsMs dateParse numParse j = none) :
    riskStepOne dateParse numParse startMs endMs j r = r := by
  rw [riskStepOne.eq_def, h]

theorem riskStepOne_out (dateParse : String → Option Int)
    (numParse : String → Option ℚ) (startMs endMs : Int) (j : Json) (r : RiskRow)
    (ts : Int) (h : riskTsMs dateParse numParse j = some ts)
    (hr : ts = 0 ∨ ts < startMs ∨ endMs ≤ ts) :
    riskStepOne dateParse numParse startMs endMs j r = r := by
  rw [riskStepOne.eq_def, h]
  simp only [if_pos hr]

theorem riskStepOne_in (dateParse : String → Option Int)
    (numParse : String → Option ℚ) (startMs endMs : Int) (j : Json) (r : RiskRow)
    (ts : Int) (h : riskTsMs dateParse numParse j = some ts)
    (hr : ¬ (ts = 0 ∨ ts < startMs ∨ endMs ≤ ts)) (ht : r.t ≠ utcDayStart ts) :
    riskStepOne dateParse numParse startMs endMs j r = r := by
  rw [riskStepOne.eq_def, h]
  simp only [if_neg hr, if_neg ht]

theorem riskStep_eq_map (dateParse : String → Option Int)
    (numParse : String → Option ℚ) (startMs endMs : Int)
    (rows : List RiskRow) (j : Json) :
    riskStep dateParse numParse startMs endMs rows j
      = rows.map (riskStepOne dateParse numParse startMs endMs j) := by
  cases h : riskTsMs dateParse numParse j with
  | none =>
    have hone : ∀ r ∈ rows, r = riskStepOne dateParse numParse startMs endMs j r :=
      fun r _ => (riskStepOne_none dateParse numParse startMs endMs j r h).symm
    calc riskStep dateParse numParse startMs endMs rows j = rows := by
          rw [riskStep.eq_def, h]
      _ = rows.map (riskStepOne dateParse numParse startMs endMs j) := by
          rw [← List.map_congr_left hone]
          simp
  | some ts =>
    by_cases hr : ts = 0 ∨ ts < startMs ∨ endMs ≤ ts
    · have hone : ∀ r ∈ rows, r = riskStepOne dateParse numParse startMs endMs j r :=
        fun r _ => (riskStepOne_out dateParse numParse startMs endMs j r ts h hr).symm
      calc riskStep dateParse numParse startMs endMs rows j = rows := by
            rw [riskStep.eq_def, h]
            simp only [if_pos hr]
        _ = rows.map (riskStepOne dateParse numParse startMs endMs j) := by
            rw [← List.map_congr_left hone]
            simp
    · rw [riskStep.eq_def, h]
      simp only [if_neg hr]
      apply List.map_congr_left
      intro r _
      rw [riskStepOne.eq_def, h]
      simp only [if_neg hr]

theorem foldl_riskStep_map (dateParse : String → Option Int)
    (numParse : String → Option ℚ) (startMs endMs : Int) (l : List Json) :
    ∀ rows : List RiskRow,
      l.foldl (riskStep dateParse numParse startMs endMs) rows
        = rows.map (fun r =>
            l.foldl (fun r j => riskStepOne dateParse numParse startMs endMs j r) r) := by
  induction l with
  | nil => intro rows; simp
  | cons j t ih =>
    intro rows
    rw [List.foldl_cons, ih, riskStep_eq_map, List.map_map]
    rfl

theorem riskStepOne_t (dateParse : String → Option Int)
    (numParse : String → Option ℚ) (startMs endMs : Int) (j : Json) (r : RiskRow) :
    (riskStepOne dateParse numParse startMs endMs j r).t = r.t := by
  cases h : riskTsMs dateParse numParse j with
  | none => rw [riskStepOne_none dateParse numParse startMs endMs j r h]
  | some ts =>
    by_cases hr : ts = 0 ∨ ts < startMs ∨ endMs ≤ ts
    · rw [riskStepOne_out dateParse numParse startMs endMs j r ts h hr]
    · by_cases ht : r.t = utcDayStart ts
      · rw [riskStepOne.eq_def, h]
        simp only [if_neg hr, if_pos ht]
      · rw [riskStepOne_in dateParse numParse startMs endMs j r ts h hr ht]

theorem riskStepOne_of_not_contrib (dateParse : String → Option Int)
    (numParse : String → Option ℚ) (startMs endMs : Int) (j : Json) (r : RiskRow)
    (h : ¬ riskContributes dateParse numParse startMs endMs r.t j) :
    riskStepOne dateParse numParse startMs endMs j r = r := by
  cases hts : riskTsMs dateParse numParse j with
  | none => exact riskStepOne_none dateParse numParse startMs endMs j r hts
  | some ts =>
    by_cases hr : ts = 0 ∨ ts < startMs ∨ endMs ≤ ts
    · exact riskStepOne_out dateParse numParse startMs endMs j r ts hts hr
    · refine riskStepOne_in dateParse numParse startMs endMs j r ts hts hr ?_
      intro he
      push_neg at hr
      exact h ⟨ts, hts, hr.1, hr.2.1, hr.2.2, he.symm⟩

theorem foldApply_risk_t (dateParse : String → Option Int)
    (numParse : String → Option ℚ) (startMs endMs : Int) (l : List Json) :
    ∀ r : RiskRow,
      (l.foldl (fun r j => riskStepOne dateParse numParse startMs endMs j r) r).t
        = r.t := by
  induction l with
  | nil => intro r; rfl
  | cons j t ih =>
    intro r
    rw [List.foldl_cons, ih, riskStepOne_t]

theorem foldApply_risk_id (dateParse : String → Option Int)
    (numParse : String → Option ℚ) (startMs endMs : Int) (l : List Json) :
    ∀ r : RiskRow,
      (∀ j ∈ l, ¬ riskContributes dateParse numParse startMs endMs r.t j) →
      l.foldl (fun r j => riskStepOne dateParse numParse startMs endMs j r) r = r := by
  induction l with
  | nil => intro r _; rfl
  | cons j t ih =>
    intro r h
    rw [List.foldl_cons,
      riskStepOne_of_not_contrib dateParse numParse startMs endMs j r
        (h j (List.mem_cons_self j t))]
    exact ih r (fun j' hj' => h j' (List.mem_cons_of_mem j hj'))

/-- The drift daily series, as a map over the prefilled day grid. -/
theorem buildDrift_eq (dateParse : String → Option Int) (file : JsonlFile)
    (w : String) (nowMs : Int) :
    buildDriftDailySeries dateParse file w nowMs
      = (List.range (windowToDays w)).map (fun (i : ℕ) =>
          (parseJsonlSafeDriftSeries file).foldl
            (fun r j => driftStepOne dateParse (windowStart (windowToDays w) nowMs)
              (utcDayStart nowMs + dayMs) j r)
            { t := windowStart (windowToDays w) nowMs + (i : Int) * dayMs,
              events := 0, modules := [] }) := by
  rw [buildDriftDailySeries]
  rw [foldl_driftStep_map, List.map_map]
  rfl

/-- The risk daily series, as a map over the prefilled day grid. -/
theorem buildRisk_eq (dateParse : String → Option Int) (numParse : String → Option ℚ)
    (file : JsonlFile) (w : String) (nowMs : Int) :
    buildRiskDailySeries dateParse numParse file w nowMs
      = (List.range (windowToDays w)).map (fun (i : ℕ) =>
          riskFinalize ((parseJsonlSafeAudit file).foldl
            (fun r j => riskStepOne dateParse numParse
              (windowStart (windowToDays w) nowMs)
              (windowStart (windowToDays w) nowMs + (windowToDays w : Int) * dayMs) j r)
            { t := windowStart (windowToDays w) nowMs + (i : Int) * dayMs,
              n := 0, scores := [] })) := by
  rw [buildRiskDailySeries]
  rw [foldl_riskStep_map, List.map_map, List.map_map]
  rfl

theorem riskFinalize_zero (t : Int) :
    riskFinalize { t := t, n := 0, scores := [] }
      = { t := t, risk_events := 0, risk_score_avg := 0, risk_score_p95 := 0 } := by
  rw [riskFinalize]
  norm_num [sortQ, roundTo]

/-- C2: for every window (any unrecognized value treated as 7d), any log
content and any fixed now, both daily series builders return exactly
`days` entries, one per UTC calendar day from `end-(days-1)` to the UTC
midnight of now, strictly ascending with no gaps or duplicates (entry
`i` carries day stamp `start + i·86400000`), and any day bucket that no
record contributes to carries zero counts and zero averages. -/
theorem claim_C2_daily_series_shape (dateParse : String → Option Int)
    (numParse : String → Option ℚ) (file : JsonlFile) (w : String) (nowMs : Int) :
    (windowToDays w = 7 ∨ windowToDays w = 14 ∨ windowToDays w = 30) ∧
    (w ≠ "14d" → w ≠ "30d" → windowToDays w = 7) ∧
    (buildDriftDailySeries dateParse file w nowMs).length = windowToDays w ∧
    (buildRiskDailySeries dateParse numParse file w nowMs).length = windowToDays w ∧
    (∀ i, i < windowToDays w →
      ((buildDriftDailySeries dateParse file w nowMs).getD i driftRowDefault).t
        = windowStart (windowToDays w) nowMs + (i : Int) * dayMs) ∧
    (∀ i, i < windowToDays w →
      ((buildRiskDailySeries dateParse numParse file w nowMs).getD i riskDayDefault).t
        = windowStart (windowToDays w) nowMs + (i : Int) * dayMs) ∧
    (∀ i j, i < j → j < windowToDays w →
      ((buildDriftDailySeries dateParse file w nowMs).getD i driftRowDefault).t
        < ((buildDriftDailySeries dateParse file w nowMs).getD j driftRowDefault).t) ∧
    (∀ i j, i < j → j < windowToDays w →
      ((buildRiskDailySeries dateParse numParse file w nowMs).getD i riskDayDefault).t
        < ((buildRiskDailySeries dateParse numParse file w nowMs).getD j riskDayDefault).t) ∧
    (∀ i, i < windowToDays w →
      (∀ j ∈ parseJsonlSafeDriftSeries file,
        ¬ driftContributes dateParse (windowStart (windowToDays w) nowMs)
          (utcDayStart nowMs + dayMs)
          (windowStart (windowToDays w) nowMs + (i : Int) * dayMs) j) →
      (buildDriftDailySeries dateParse file w nowMs).getD i driftRowDefault
        = { t := windowStart (windowToDays w) nowMs + (i : Int) * dayMs,
            events := 0, modules := [] }) ∧
    (∀ i, i < windowToDays w →
      (∀ j ∈ parseJsonlSafeAudit file,
        ¬ riskContributes dateParse numParse (windowStart (windowToDays w) nowMs)
          (windowStart (windowToDays w) nowMs + (windowToDays w : Int) * dayMs)
          (windowStart (windowToDays w) nowMs + (i : Int) * dayMs) j) →
      (buildRiskDailySeries dateParse numParse file w nowMs).getD i riskDayDefault
        = { t := windowStart (windowToDays w) nowMs + (i : Int) * dayMs,
            risk_events := 0, risk_score_avg := 0, risk_score_p95 := 0 }) := by
  have hwd : windowToDays w = 7 ∨ windowToDays w = 14 ∨ windowToDays w = 30 := by
    rw [windowToDays]
    split_ifs <;> simp
  have hdlen : (buildDriftDailySeries dateParse file w nowMs).length = windowToDays w := by
    rw [buildDrift_eq, List.length_map, List.length_range]
  have hrlen : (buildRiskDailySeries dateParse numParse file w nowMs).length
      = windowToDays w := by
    rw [buildRisk_eq, List.length_map, List.length_range]
  have hdt : ∀ i, i < windowToDays w →
      ((buildDriftDailySeries dateParse file w nowMs).getD i driftRowDefault).t
        = windowStart (windowToDays w) nowMs + (i : Int) * dayMs := by
    intro i hi
    rw [buildDrift_eq, getD_range_map _ _ _ _ hi, foldApply_drift_t]
  have hrt : ∀ i, i < windowToDays w →
      ((buildRiskDailySeries dateParse numParse file w nowMs).getD i riskDayDefault).t
        = windowStart (windowToDays w) nowMs + (i : Int) * dayMs := by
    intro i hi
    rw [buildRisk_eq, getD_range_map _ _ _ _ hi]
    rw [show ∀ r : RiskRow, (riskFinalize r).t = r.t from fun r => rfl]
    rw [foldApply_risk_t]
  refine ⟨hwd, ?_, hdlen, hrlen, hdt, hrt, ?_, ?_, ?_, ?_⟩
  · intro h14 h30
    rw [windowToDays, if_neg h14, if_neg h30]
  · intro i j hij hj
    rw [hdt i (lt_trans hij hj), hdt j hj]
    have hd : (0 : Int) < dayMs := by rw [dayMs]; norm_num
    have : (i : Int) < (j : Int) := by exact_mod_cast hij
    nlinarith
  · intro i j hij hj
    rw [hrt i (lt_trans hij hj), hrt j hj]
    have hd : (0 : Int) < dayMs := by rw [dayMs]; norm_num
    have : (i : Int) < (j : Int) := by exact_mod_cast hij
    nlinarith
  · intro i hi hnone
    rw [buildDrift_eq, getD_range_map _ _ _ _ hi]
    exact foldApply_drift_id dateParse _ _ _ _ hnone
  · intro i hi hnone
    rw [buildRisk_eq, getD_range_map _ _ _ _ hi]
    rw [foldApply_risk_id dateParse numParse _ _ _ _ hnone]
    exact riskFinalize_zero _

/-! ## Module-less events in the trend analyzer (C10) -/

theorem jsValStr_eq_some (v : JsVal) (s : String) :
    jsValStr v = some s ↔ v = JsVal.str s := by
  cases v <;> simp [jsValStr]

theorem dedup_length_of_undef_mem (l : List JsVal)
    (hall : ∀ x ∈ l, x = JsVal.undef ∨ ∃ s, x = JsVal.str s)
    (h : JsVal.undef ∈ l) :
    l.dedup.length = (l.filterMap jsValStr).dedup.length + 1 := by
  rw [← List.card_toFinset, ← List.card_toFinset]
  have hmap : (l.filterMap jsValStr).toFinset.map
      ⟨JsVal.str, fun a b hab => by rwa [JsVal.str.injEq] at hab⟩
      = l.toFinset.erase JsVal.undef := by
    ext x
    simp only [Finset.mem_map, List.mem_toFinset, List.mem_filterMap,
      Finset.mem_erase, Function.Embedding.coeFn_mk]
    constructor
    · rintro ⟨a, ⟨v, hv, hva⟩, rfl⟩
      rw [jsValStr_eq_some] at hva
      subst hva
      exact ⟨by simp, hv⟩
    · rintro ⟨hx, hxl⟩
      rcases hall x hxl with rfl | ⟨s, rfl⟩
      · exact absurd rfl hx
      · exact ⟨s, ⟨JsVal.str s, hxl, rfl⟩, rfl⟩
  have hcard : (l.filterMap jsValStr).toFinset.card
      = (l.toFinset.erase JsVal.undef).card := by
    rw [← hmap, Finset.card_map]
  rw [hcard, Finset.card_erase_of_mem (List.mem_toFinset.mpr h)]
  have hpos : 0 < l.toFinset.card :=
    Finset.card_pos.mpr ⟨JsVal.undef, List.mem_toFinset.mpr h⟩
  omega

theorem enum_map_moduleVal_filterMap (l : List Json) : ∀ n : ℕ,
    ((l.enumFrom n).map (fun p => moduleVal p.1 p.2)).filterMap jsValStr
      = l.filterMap moduleString := by
  induction l with
  | nil => intro n; rfl
  | cons a t ih =>
    intro n
    simp only [List.enumFrom_cons, List.map_cons, List.filterMap_cons]
    have h1 : jsValStr (moduleVal n a) = moduleString a := by
      rw [moduleVal.eq_def, moduleString.eq_def]
      cases h : a.get? "module" with
      | none => rfl
      | some v => cases v <;> rfl
    rw [h1]
    cases hm : moduleString a
    · exact ih (n + 1)
    · rw [ih (n + 1)]

theorem undef_mem_enum_map_moduleVal (l : List Json) : ∀ n : ℕ,
    (∃ j ∈ l, j.get? "module" = none) →
      JsVal.undef ∈ (l.enumFrom n).map (fun p => moduleVal p.1 p.2) := by
  induction l with
  | nil => intro n h; exact absurd h (by simp)
  | cons a t ih =>
    intro n h
    rw [List.enumFrom_cons, List.map_cons]
    rcases h with ⟨j, hj, hjm⟩
    rcases List.mem_cons.mp hj with rfl | hjt
    · have hv : moduleVal n j = JsVal.undef := by rw [moduleVal.eq_def, hjm]
      exact List.mem_cons.mpr (Or.inl hv.symm)
    · exact List.mem_cons_of_mem _ (ih (n + 1) ⟨j, hjt, hjm⟩)

theorem mem_enum_map_moduleVal (l : List Json)
    (hstr : ∀ j ∈ l,
      j.get? "module" = none ∨ ∃ s, j.get? "module" = some (Json.str s)) :
    ∀ n : ℕ, ∀ x ∈ (l.enumFrom n).map (fun p => moduleVal p.1 p.2),
      x = JsVal.undef ∨ ∃ s, x = JsVal.str s := by
  induction l with
  | nil => intro n x hx; exact absurd hx (by simp)
  | cons a t ih =>
    intro n x hx
    rw [List.enumFrom_cons, List.map_cons] at hx
    rcases List.mem_cons.mp hx with rfl | hxt
    · rcases hstr a (List.mem_cons_self a t) with h | ⟨s, h⟩
      · left
        show moduleVal n a = JsVal.undef
        rw [moduleVal.eq_def, h]
      · right
        refine ⟨s, ?_⟩
        show moduleVal n a = JsVal.str s
        rw [moduleVal.eq_def, h]
    · exact ih (fun j hj => hstr j (List.mem_cons_of_mem a hj)) (n + 1) x hxt

theorem analyzeDrift_unique_modules (dateParse : String → Option Int)
    (numToStr : ℚ → String) (refToStr : ℕ → String)
    (file : JsonlFile) (w : String) (nowMs : Int) :
    (analyzeDrift dateParse numToStr refToStr file w nowMs).unique_modules
      = (((driftCurrent dateParse file w nowMs).enum.map
          (fun p => moduleVal p.1 p.2)).dedup).length := rfl

/-- C10 as stated is refuted: the module `Set` keeps every distinct raw
value, not only strings and `undefined`.  A log whose current window has
one module-less event and one event with `module: null` gives
`unique_modules = 2` while it has 0 distinct string modules, so
`unique_modules ≠ distinct string modules + 1`. -/
theorem claim_C10_counterexample :
    (analyzeDrift (fun _ => some 1) (fun _ => "") (fun _ => "")
        (some [some sampleDriftEvent, some moduleNullEvent]) "7d" 0).unique_modules
      = 2 ∧
    ((driftCurrent (fun _ => some 1)
        (some [some sampleDriftEvent, some moduleNullEvent]) "7d" 0).filterMap
        moduleString).dedup.length = 0 ∧
    (analyzeDrift (fun _ => some 1) (fun _ => "") (fun _ => "")
        (some [some sampleDriftEvent, some moduleNullEvent]) "7d" 0).unique_modules
      ≠ ((driftCurrent (fun _ => some 1)
          (some [some sampleDriftEvent, some moduleNullEvent]) "7d" 0).filterMap
          moduleString).dedup.length + 1 := by
  refine ⟨rfl, rfl, ?_⟩
  intro hcontra
  rw [show (analyzeDrift (fun _ => some 1) (fun _ => "") (fun _ => "")
      (some [some sampleDriftEvent, some moduleNullEvent]) "7d" 0).unique_modules
      = 2 from rfl] at hcontra
  rw [show ((driftCurrent (fun _ => some 1)
      (some [some sampleDriftEvent, some moduleNullEvent]) "7d" 0).filterMap
      moduleString).dedup.length = 0 from rfl] at hcontra
  exact absurd hcontra (by norm_num)

/-- C10 (amended): events in the current window without a `module` field
are counted inconsistently at the public interface, provided every
current-window event carries either a string module or no module field
at all (with other raw values, e.g. `module: null`, the `Set` keeps each
distinct non-string value as its own extra member): `unique_modules`
counts the `undefined` value as one extra distinct module, so it equals
the number of distinct string modules plus one, while the dominance
counts map keys every module-less event to the string `"unknown"`. -/
theorem claim_C10_amended_moduleless (dateParse : String → Option Int)
    (numToStr : ℚ → String) (refToStr : ℕ → String)
    (file : JsonlFile) (w : String) (nowMs : Int)
    (hstr : ∀ j ∈ driftCurrent dateParse file w nowMs,
      j.get? "module" = none ∨ ∃ s, j.get? "module" = some (Json.str s))
    (hnone : ∃ j ∈ driftCurrent dateParse file w nowMs, j.get? "module" = none) :
    (analyzeDrift dateParse numToStr refToStr file w nowMs).unique_modules
      = ((driftCurrent dateParse file w nowMs).filterMap moduleString).dedup.length
        + 1 ∧
    (∀ (i : ℕ), ∀ j ∈ driftCurrent dateParse file w nowMs,
      j.get? "module" = none → moduleKey i j = JsVal.str "unknown") := by
  constructor
  · rw [analyzeDrift_unique_modules]
    rw [show (driftCurrent dateParse file w nowMs).enum
        = (driftCurrent dateParse file w nowMs).enumFrom 0 from rfl]
    rw [dedup_length_of_undef_mem _
      (mem_enum_map_moduleVal _ hstr 0)
      (undef_mem_enum_map_moduleVal _ 0 hnone)]
    rw [enum_map_moduleVal_filterMap _ 0]
  · intro i j _ hj
    rw [moduleKey]
    have hv : moduleVal i j = JsVal.undef := by rw [moduleVal.eq_def, hj]
    rw [hv]
    rfl

theorem claim_C10_witness :
    (analyzeDrift (fun _ => some 1) (fun _ => "") (fun _ => "")
        (some [some sampleDriftEvent]) "7d" 0).unique_modules = 1 := by
  have hc : driftCurrent (fun _ => some 1) (some [some sampleDriftEvent]) "7d" 0
      = [sampleDriftEvent] := rfl
  have h := claim_C10_amended_moduleless (fun _ => some 1) (fun _ => "")
    (fun _ => "") (some [some sampleDriftEvent]) "7d" 0
    (by
      intro j hj
      rw [hc] at hj
      rw [List.mem_singleton] at hj
      subst hj
      exact Or.inl rfl)
    ⟨sampleDriftEvent, by rw [hc]; exact List.mem_singleton_self _, rfl⟩
  rw [h.1, hc]
  rfl

theorem bundle_series_eq (dateParse : String → Option Int)
    (numParse : String → Option ℚ) (rand : ℕ → ℚ) (driftFile auditFile : JsonlFile)
    (window bucket metric_x metric_y : String) (lagsArg : Option (Option ℚ))
    (subsArg : Option ℚ) (nowMs : Int) :
    (buildAssociationBundle dateParse numParse rand driftFile auditFile window
        bucket metric_x metric_y lagsArg subsArg nowMs).series
      = buildXYSeries (buildDriftDailySeries dateParse driftFile window nowMs)
          (buildRiskDailySeries dateParse numParse auditFile window nowMs)
          metric_x metric_y := rfl

theorem buildXYSeries_getD (driftDaily : List DriftRow) (riskDaily : List RiskDay)
    (metricX metricY : String) (i : ℕ)
    (h : i < min driftDaily.length riskDaily.length) :
    (buildXYSeries driftDaily riskDaily metricX metricY).getD i xyDefault
      = { t := (driftDaily.getD i driftRowDefault).t
          x := metricXVal metricX (driftDaily.getD i driftRowDefault)
          y := metricYVal metricY (riskDaily.getD i riskDayDefault) } := by
  have hlen : i < (buildXYSeries driftDaily riskDaily metricX metricY).length := by
    rw [buildXYSeries, List.length_map, List.length_zip]
    exact h
  rw [List.getD_eq_getElem _ _ hlen]
  have hd : i < driftDaily.length := lt_of_lt_of_le h (min_le_left _ _)
  have hr : i < riskDaily.length := lt_of_lt_of_le h (min_le_right _ _)
  rw [List.getD_eq_getElem _ _ hd, List.getD_eq_getElem _ _ hr]
  simp [buildXYSeries]

/-- C9: within one association-bundle invocation the two daily series
are aligned: both builders derive the same window from the same `nowMs`,
so they have equal length (`days`) and identical day stamps at every
index, and the joint series has exactly `days` entries, each pairing
the two metrics of the same UTC day. -/
theorem claim_C9_alignment (dateParse : String → Option Int)
    (numParse : String → Option ℚ) (rand : ℕ → ℚ) (driftFile auditFile : JsonlFile)
    (window bucket metric_x metric_y : String) (lagsArg : Option (Option ℚ))
    (subsArg : Option ℚ) (nowMs : Int) :
    (buildDriftDailySeries dateParse driftFile window nowMs).length
      = (buildRiskDailySeries dateParse numParse auditFile window nowMs).length ∧
    (∀ i, i < windowToDays window →
      ((buildDriftDailySeries dateParse driftFile window nowMs).getD i driftRowDefault).t
        = ((buildRiskDailySeries dateParse numParse auditFile window nowMs).getD i
            riskDayDefault).t) ∧
    (buildAssociationBundle dateParse numParse rand driftFile auditFile window
        bucket metric_x metric_y lagsArg subsArg nowMs).series.length
      = windowToDays window ∧
    (∀ i, i < windowToDays window →
      ((buildAssociationBundle dateParse numParse rand driftFile auditFile window
          bucket metric_x metric_y lagsArg subsArg nowMs).series.getD i xyDefault).t
        = windowStart (windowToDays window) nowMs + (i : Int) * dayMs ∧
      ((buildAssociationBundle dateParse numParse rand driftFile auditFile window
          bucket metric_x metric_y lagsArg subsArg nowMs).series.getD i xyDefault).x
        = metricXVal metric_x
            ((buildDriftDailySeries dateParse driftFile window nowMs).getD i
              driftRowDefault) ∧
      ((buildAssociationBundle dateParse numParse rand driftFile auditFile window
          bucket metric_x metric_y lagsArg subsArg nowMs).series.getD i xyDefault).y
        = metricYVal metric_y
            ((buildRiskDailySeries dateParse numParse auditFile window nowMs).getD i
              riskDayDefault)) := by
  have hdlen : (buildDriftDailySeries dateParse driftFile window nowMs).length
      = windowToDays window := by
    rw [buildDrift_eq, List.length_map, List.length_range]
  have hrlen : (buildRiskDailySeries dateParse numParse auditFile window nowMs).length
      = windowToDays window := by
    rw [buildRisk_eq, List.length_map, List.length_range]
  have hdt : ∀ i, i < windowToDays window →
      ((buildDriftDailySeries dateParse driftFile window nowMs).getD i driftRowDefault).t
        = windowStart (windowToDays window) nowMs + (i : Int) * dayMs := by
    intro i hi
    rw [buildDrift_eq, getD_range_map _ _ _ _ hi, foldApply_drift_t]
  have hrt : ∀ i, i < windowToDays window →
      ((buildRiskDailySeries dateParse numParse auditFile window nowMs).getD i
          riskDayDefault).t
        = windowStart (windowToDays window) nowMs + (i : Int) * dayMs := by
    intro i hi
    rw [buildRisk_eq, getD_range_map _ _ _ _ hi]
    rw [show ∀ r : RiskRow, (riskFinalize r).t = r.t from fun r => rfl]
    rw [foldApply_risk_t]
  have hmin : ∀ i, i < windowToDays window →
      i < min (buildDriftDailySeries dateParse driftFile window nowMs).length
          (buildRiskDailySeries dateParse numParse auditFile window nowMs).length := by
    intro i hi
    rw [hdlen, hrlen, min_self]
    exact hi
  refine ⟨by rw [hdlen, hrlen], ?_, ?_, ?_⟩
  · intro i hi
    rw [hdt i hi, hrt i hi]
  · rw [bundle_series_eq, buildXYSeries, List.length_map, List.length_zip, hdlen,
      hrlen, min_self]
  · intro i hi
    rw [bundle_series_eq, buildXYSeries_getD _ _ _ _ i (hmin i hi)]
    exact ⟨hdt i hi, rfl, rfl⟩

theorem claim_C2_witness :
    (buildDriftDailySeries (fun _ => none) none "7d" 0).length = 7 ∧
    (buildDriftDailySeries (fun _ => none) none "7d" 0).getD 0 driftRowDefault
      = { t := -518400000, events := 0, modules := [] } := by
  have h := claim_C2_daily_series_shape (fun _ => none) (fun _ => none) none "7d" 0
  constructor
  · rw [h.2.2.1]
    decide
  · have h0 := h.2.2.2.2.2.2.2.2.1 0 (by decide)
      (by intro j hj; simp [parseJsonlSafeDriftSeries] at hj)
    rw [h0]
    norm_num [windowStart, utcDayStart, dayMs, windowToDays]
    decide

theorem claim_C9_witness :
    (buildAssociationBundle (fun _ => none) (fun _ => none) (fun _ => 0) none none
      "7d" "day" "drift_density" "risk_score_avg" none none 0).series.length = 7 ∧
    ((buildAssociationBundle (fun _ => none) (fun _ => none) (fun _ => 0) none none
      "7d" "day" "drift_density" "risk_score_avg" none none 0).series.getD 0
        xyDefault).t = -518400000 := by
  have h := claim_C9_alignment (fun _ => none) (fun _ => none) (fun _ => 0) none none
    "7d" "day" "drift_density" "risk_score_avg" none none 0
  constructor
  · rw [h.2.2.1]
    decide
  · have h0 := h.2.2.2 0 (by decide)
    rw [h0.1]
    norm_num [windowStart, utcDayStart, dayMs, windowToDays]
    decide
